import Mathlib

/-!
# websocket_gin: the connection hub, its event handlers and their contracts

A shallow embedding of `internal/websocket` (the hub, its membership maps and the
per-client send channels) and of `internal/websocket/handlers` (the room, chat and
comment handlers), followed by theorems about them.

Modelling conventions

* A `*Client` pointer is a `ClientId`; the mutable part of a client (its `send` channel)
  lives in `State.send`, the immutable part (`username`) in `State.username`.
* A Go `map[*Client]bool` is a `ClientSet`: the list of its keys, without repetition.
  The order of the list is the order in which a `range` over the map visits the keys;
  Go leaves that order unspecified, so a statement over all `ClientSet`s covers all orders.
* A Go `map[string]map[*Client]bool` is a function `String → Option ClientSet`
  (`none`: no entry, which is what `m[k] == nil` tests).
* A buffered channel is its queue, its capacity and its closed flag.  Sending on a closed
  channel and closing a closed channel panic, as in Go; a panic is `Except.error`.
* Code outside the repository (`encoding/json`, `strings`, `database/sql`, the clock) is
  taken from an `Env`.
* The hub methods are modelled as atomic steps; their interleaving is not modelled.
-/

namespace WebsocketGin

/-! ## Channels -/

/-- The content of a `[]byte`. -/
abbrev Bytes := List UInt8

/-- The address of a `Client` value (`*Client`). -/
abbrev ClientId := Nat

/-- Run-time panics of the Go channel operations used by the hub. -/
inductive Panic where
  | sendOnClosedChannel
  | closeOfClosedChannel
  deriving DecidableEq, Repr

/-- A buffered `chan []byte`: queued messages (head is the oldest), capacity, closed flag. -/
structure Chan where
  buf : List Bytes
  cap : Nat
  closed : Bool
  deriving DecidableEq, Repr

namespace Chan

/-- The channel built by `make(chan []byte, n)`. -/
def make (n : Nat) : Chan := { buf := [], cap := n, closed := false }

/-- Whether the buffer is full (`len(ch) == cap(ch)`). -/
def full (ch : Chan) : Bool := decide (ch.cap ≤ ch.buf.length)

/-- The non-blocking send `select { case ch <- m: ... default: ... }`:
`some ch'` when the message was queued, `none` when the `default` branch is taken,
a panic when the channel is closed. -/
def trySend (ch : Chan) (m : Bytes) : Except Panic (Option Chan) :=
  if ch.closed then .error .sendOnClosedChannel
  else if ch.full then .ok none
  else .ok (some { ch with buf := ch.buf ++ [m] })

/-- The statement `close(ch)`. -/
def close (ch : Chan) : Except Panic Chan :=
  if ch.closed then .error .closeOfClosedChannel
  else .ok { ch with closed := true }

end Chan

/-! ## Sets of clients -/

/-- A `map[*Client]bool` whose values are all `true`: its keys, each once. -/
structure ClientSet where
  keys : List ClientId
  nodup : keys.Nodup

namespace ClientSet

instance : DecidableEq ClientSet := fun a b =>
  match a, b with
  | ⟨ka, _⟩, ⟨kb, _⟩ =>
    if h : ka = kb then isTrue (by subst h; rfl)
    else isFalse (fun e => h (congrArg ClientSet.keys e))

/-- The map built by `make(map[*Client]bool)`. -/
def empty : ClientSet := ⟨[], List.nodup_nil⟩

/-- The test `_, ok := m[c]`. -/
def contains (s : ClientSet) (c : ClientId) : Bool := decide (c ∈ s.keys)

/-- The assignment `m[c] = true`. -/
def insert (s : ClientSet) (c : ClientId) : ClientSet :=
  if h : c ∈ s.keys then s
  else ⟨s.keys ++ [c], List.Nodup.append s.nodup (List.nodup_singleton c)
      (fun _ ha hb => h ((List.mem_singleton.mp hb) ▸ ha))⟩

/-- The statement `delete(m, c)`. -/
def delete (s : ClientSet) (c : ClientId) : ClientSet :=
  ⟨s.keys.erase c, s.nodup.erase c⟩

/-- The value of `len(m)`. -/
def len (s : ClientSet) : Nat := s.keys.length

end ClientSet

/-- A `map[string]map[*Client]bool`: `none` where the map has no entry. -/
abbrev GroupMap := String → Option ClientSet

/-! ## The hub -/

/-- The fields of `Hub` that carry state (`hub.go`). -/
structure Hub where
  clients : ClientSet
  chatRooms : GroupMap
  postSubscribers : GroupMap

/-- The value built by `NewHub`. -/
def NewHub : Hub :=
  { clients := ClientSet.empty, chatRooms := fun _ => none, postSubscribers := fun _ => none }

/-- The hub together with the clients it can reach. -/
structure State where
  hub : Hub
  send : ClientId → Chan
  username : ClientId → String

/-- The capacity given to `send` by `HandleWebSocket`: `make(chan []byte, 256)`. -/
def sendBufferSize : Nat := 256

/-- A new hub; every client that `HandleWebSocket` will create has a fresh `send` channel. -/
def State.init (username : ClientId → String) : State :=
  { hub := NewHub, send := fun _ => Chan.make sendBufferSize, username := username }

/-- The implementations of `shared.ClientInterface` in the repository: the hub's own
`*Client` and the `MockClient` of `handlers/simple_chat.go`. -/
inductive ClientInterface where
  | client (c : ClientId)
  | mock (username : String)
  deriving DecidableEq, Repr

/-- The type assertion `client.(*Client)`. -/
def ClientInterface.asClient : ClientInterface → Option ClientId
  | .client c => some c
  | .mock _ => none

/-- The method `GetUsername`. -/
def ClientInterface.GetUsername (st : State) : ClientInterface → String
  | .client c => st.username c
  | .mock u => u

/-- One of the two loops of `handleClientUnregister` over a membership map:
every entry that holds the client loses it, and is dropped when it becomes empty.
Each iteration touches only its own entry, so the loop acts entry by entry. -/
def removeFromGroups (m : GroupMap) (client : ClientId) : GroupMap :=
  fun name =>
    match m name with
    | none => none
    | some members =>
      if members.contains client then
        let members := members.delete client
        if members.len = 0 then none else some members
      else some members

/-- The method `handleClientRegister`. -/
def handleClientRegister (st : State) (client : ClientId) : State :=
  { st with hub := { st.hub with clients := st.hub.clients.insert client } }

/-- The method `handleClientUnregister`. -/
def handleClientUnregister (st : State) (client : ClientId) : Except Panic State :=
  if st.hub.clients.contains client then
    match (st.send client).close with
    | .error p => .error p
    | .ok ch =>
      .ok { st with
        hub :=
          { clients := st.hub.clients.delete client
            chatRooms := removeFromGroups st.hub.chatRooms client
            postSubscribers := removeFromGroups st.hub.postSubscribers client }
        send := Function.update st.send client ch }
  else .ok st

/-- The body shared by `JoinChatRoom` and `SubscribeToPost`: create the entry when it is
missing, then add the client. -/
def addToGroup (m : GroupMap) (name : String) (client : ClientId) : GroupMap :=
  let m := if m name = none then Function.update m name (some ClientSet.empty) else m
  match m name with
  | none => m
  | some members => Function.update m name (some (members.insert client))

/-- The method `JoinChatRoom`. -/
def JoinChatRoom (st : State) (client : ClientInterface) (roomName : String) : State :=
  match client.asClient with
  | none => st
  | some concreteClient =>
    { st with hub := { st.hub with
        chatRooms := addToGroup st.hub.chatRooms roomName concreteClient } }

/-- The method `SubscribeToPost`. -/
def SubscribeToPost (st : State) (client : ClientInterface) (postID : String) : State :=
  match client.asClient with
  | none => st
  | some concreteClient =>
    { st with hub := { st.hub with
        postSubscribers := addToGroup st.hub.postSubscribers postID concreteClient } }

/-- The loop `for client := range members { select { case client.send <- eventBytes:
default: delete(members, client); close(client.send) } }` of the two broadcast methods.
The first argument lists the keys still to be visited. -/
def broadcastLoop (eventBytes : Bytes) :
    List ClientId → (ClientId → Chan) × ClientSet → Except Panic ((ClientId → Chan) × ClientSet)
  | [], acc => .ok acc
  | client :: rest, (send, members) =>
    match (send client).trySend eventBytes with
    | .error p => .error p
    | .ok (some ch) => broadcastLoop eventBytes rest (Function.update send client ch, members)
    | .ok none =>
      match (send client).close with
      | .error p => .error p
      | .ok ch =>
        broadcastLoop eventBytes rest (Function.update send client ch, members.delete client)

/-! ## Events -/

/-- The struct `ChatMessageEvent` (`handlers/chat/handler.go`). -/
structure ChatMessageEvent where
  Type_ : String
  Room : String
  User : String
  Message : String
  deriving DecidableEq, Repr

/-- The struct `PostCommentEvent` (`handlers/comments/handler.go`). -/
structure PostCommentEvent where
  Type_ : String
  PostID : String
  User : String
  Comment : String
  deriving DecidableEq, Repr

/-- The struct `JoinRoomEvent` (`handlers/rooms/handler.go`). -/
structure JoinRoomEvent where
  Type_ : String
  Room : String
  User : String
  deriving DecidableEq, Repr

/-- The struct `RoomJoinedEvent` (`handlers/rooms/handler.go`). -/
structure RoomJoinedEvent where
  Type_ : String
  Room : String
  User : String
  deriving DecidableEq, Repr

/-- The struct `ErrorEvent` (`handlers/shared/errors.go`). -/
structure ErrorEvent where
  Type_ : String
  Message : String
  Code : String
  deriving DecidableEq, Repr

/-- The values handed to the hub as `event interface{}`: the four event structs of the
handlers, and any other Go value. -/
inductive Event where
  | chatMessage (e : ChatMessageEvent)
  | postComment (e : PostCommentEvent)
  | roomJoined (e : RoomJoinedEvent)
  | errorEvent (e : ErrorEvent)
  | other (tag : Nat)
  deriving DecidableEq, Repr

/-- A `time.Time`: the zero value, or an instant given by its `UnixNano`. -/
inductive Time where
  | zero
  | instant (unixNano : Int)
  deriving DecidableEq, Repr

/-- The method `IsZero`. -/
def Time.IsZero : Time → Bool
  | .zero => true
  | .instant _ => false

/-- The struct `models.Message`. -/
structure Message where
  ID : String
  Username : String
  Content : String
  RoomID : String
  Type_ : String
  Timestamp : Time
  CreatedAt : Time
  deriving DecidableEq, Repr

/-- The struct `models.Comment`. -/
structure Comment where
  ID : String
  PostID : String
  Content : String
  AuthorID : String
  AuthorName : String
  CreatedAt : Time
  UpdatedAt : Time
  deriving DecidableEq, Repr

/-- A JSON value, as `encoding/json` sees a syntactically valid text. -/
inductive Json where
  | null
  | bool (b : Bool)
  | number (text : String)
  | string (s : String)
  | array (items : List Json)
  | object (members : List (String × Json))

/-- The name `encoding/json` gives to the kind of a value in an `UnmarshalTypeError`. -/
def Json.kind : Json → String
  | .null => "null"
  | .bool _ => "bool"
  | .number _ => "number"
  | .string _ => "string"
  | .array _ => "array"
  | .object _ => "object"

/-- The rows of the two tables the handlers write to. -/
structure DB where
  messages : List Message
  comments : List Comment
  deriving DecidableEq, Repr

/-- What the code takes from outside the repository. -/
structure Env where
  /-- The function `json.Marshal` on the values handed to the hub. -/
  marshal : Event → Except String Bytes
  /-- The syntax check of `json.Unmarshal`: the value a valid JSON text denotes, or the
  `SyntaxError` of a text that is not valid JSON. -/
  parse : Bytes → Except String Json
  /-- The function `json.Unmarshal` into a zero `JoinRoomEvent`. -/
  unmarshalJoinRoom : Bytes → Except String JoinRoomEvent
  /-- The function `json.Unmarshal` into a zero `ChatMessageEvent`. -/
  unmarshalChatMessage : Bytes → Except String ChatMessageEvent
  /-- The function `json.Unmarshal` into a zero `PostCommentEvent`. -/
  unmarshalPostComment : Bytes → Except String PostCommentEvent
  /-- The function `strings.ToLower`. -/
  toLower : String → String
  /-- The function `strings.TrimSpace`. -/
  trimSpace : String → String
  /-- The `UnixNano` of the n-th reading of `time.Now()`. -/
  now : Nat → Int
  /-- The `INSERT INTO messages` run by `db.Exec`: the new table content, or the driver error. -/
  execMessage : DB → Message → Except String DB
  /-- The `INSERT INTO comments` run by `db.Exec`. -/
  execComment : DB → Comment → Except String DB

/-! ## Hub methods that send -/

/-- The method `BroadcastToChatRoom`. -/
def BroadcastToChatRoom (env : Env) (st : State) (roomName : String) (event : Event) :
    Except Panic State :=
  match st.hub.chatRooms roomName with
  | none => .ok st
  | some roomClients =>
    match env.marshal event with
    | .error _ => .ok st
    | .ok eventBytes =>
      match broadcastLoop eventBytes roomClients.keys (st.send, roomClients) with
      | .error p => .error p
      | .ok (send, roomClients) =>
        .ok { st with
          hub := { st.hub with
            chatRooms := Function.update st.hub.chatRooms roomName (some roomClients) }
          send := send }

/-- The method `BroadcastToPostSubscribers`. -/
def BroadcastToPostSubscribers (env : Env) (st : State) (postID : String) (event : Event) :
    Except Panic State :=
  match st.hub.postSubscribers postID with
  | none => .ok st
  | some postClients =>
    match env.marshal event with
    | .error _ => .ok st
    | .ok eventBytes =>
      match broadcastLoop eventBytes postClients.keys (st.send, postClients) with
      | .error p => .error p
      | .ok (send, postClients) =>
        .ok { st with
          hub := { st.hub with
            postSubscribers := Function.update st.hub.postSubscribers postID (some postClients) }
          send := send }

/-- The method `SendToClient`; the second component is the returned `error` (`none`: nil). -/
def SendToClient (env : Env) (st : State) (client : ClientInterface) (event : Event) :
    Except Panic (State × Option String) :=
  match client.asClient with
  | none => .ok (st, some "invalid client type")
  | some concreteClient =>
    match env.marshal event with
    | .error err => .ok (st, some ("error marshaling event: " ++ err))
    | .ok eventBytes =>
      match (st.send concreteClient).trySend eventBytes with
      | .error p => .error p
      | .ok (some ch) => .ok ({ st with send := Function.update st.send concreteClient ch }, none)
      | .ok none => .ok (st, some "client send buffer is full")

/-! ## Sequences of hub operations -/

/-- The operations of the hub. -/
inductive Op where
  | register (client : ClientId)
  | unregister (client : ClientId)
  | joinRoom (client : ClientInterface) (roomName : String)
  | subscribe (client : ClientInterface) (postID : String)
  | broadcastRoom (roomName : String) (event : Event)
  | broadcastPost (postID : String) (event : Event)
  | sendDirect (client : ClientInterface) (event : Event)
  deriving DecidableEq, Repr

/-- One hub operation. -/
def step (env : Env) (st : State) : Op → Except Panic State
  | .register client => .ok (handleClientRegister st client)
  | .unregister client => handleClientUnregister st client
  | .joinRoom client roomName => .ok (JoinChatRoom st client roomName)
  | .subscribe client postID => .ok (SubscribeToPost st client postID)
  | .broadcastRoom roomName event => BroadcastToChatRoom env st roomName event
  | .broadcastPost postID event => BroadcastToPostSubscribers env st postID event
  | .sendDirect client event =>
    match SendToClient env st client event with
    | .error p => .error p
    | .ok (st, _) => .ok st

/-- A sequence of hub operations, stopped by the first panic. -/
def run (env : Env) (st : State) : List Op → Except Panic State
  | [] => .ok st
  | op :: ops =>
    match step env st op with
    | .error p => .error p
    | .ok st => run env st ops

/-- The panic that ended a computation, if one did. -/
def panicOf {α : Type} : Except Panic α → Option Panic
  | .error p => some p
  | .ok _ => none

/-! ## Validators -/

/-- The character class `[a-zA-Z0-9_-]`. -/
def isNameChar (c : Char) : Bool :=
  (decide ('a' ≤ c) && decide (c ≤ 'z')) || (decide ('A' ≤ c) && decide (c ≤ 'Z'))
    || (decide ('0' ≤ c) && decide (c ≤ '9')) || c == '_' || c == '-'

/-- The method `MatchString` of `regexp.MustCompile("^[a-zA-Z0-9_-]+$")`: without the `m`
flag `^` and `$` match only at the two ends of the text, so the text matches when it is
not empty and all its characters are in the class. -/
def matchName (s : String) : Bool := !s.data.isEmpty && s.data.all isNameChar

/-- The value of `len(s)` for a Go string: its length in bytes. -/
def len (s : String) : Nat := s.utf8ByteSize

/-- The method `ValidateChatMessage` (`handlers/chat/validator.go`); `none` is a nil error. -/
def ValidateChatMessage (event : ChatMessageEvent) : Option String :=
  if event.Room = "" then some "room name is required for chat message"
  else if event.Message = "" then some "message content is required"
  else if len event.Message > 1000 then some "message too long (max 1000 characters)"
  else if len event.Room > 50 then some "room name too long (max 50 characters)"
  else none

/-- The method `ValidatePostComment` (`handlers/comments/validator.go`). -/
def ValidatePostComment (event : PostCommentEvent) : Option String :=
  if event.PostID = "" then some "post_id is required for comment"
  else if event.Comment = "" then some "comment content is required"
  else if len event.Comment > 2000 then some "comment too long (max 2000 characters)"
  else if len event.PostID > 100 then some "post_id too long (max 100 characters)"
  else if !matchName event.PostID then
    some "invalid post_id format (only alphanumeric, dash, underscore allowed)"
  else none

/-- The keys of `reservedRooms` in `NewValidator` (`handlers/rooms/validator.go`). -/
def reservedRooms : List String := ["admin", "system", "private"]

/-- The method `ValidateJoinRoom` (`handlers/rooms/validator.go`). -/
def ValidateJoinRoom (env : Env) (event : JoinRoomEvent) : Option String :=
  if event.Room = "" then some "room name is required"
  else
    let roomName := env.trimSpace (env.toLower event.Room)
    if len roomName < 2 then some "room name too short (min 2 characters)"
    else if len roomName > 30 then some "room name too long (max 30 characters)"
    else if !matchName roomName then
      some "invalid room name format (only alphanumeric, dash, underscore allowed)"
    else if roomName ∈ reservedRooms then some ("room name \x27" ++ roomName ++ "\x27 is reserved")
    else none

/-! ## Repositories -/

/-- The method `MessageRepository.SaveMessage`; `now` is its reading of `time.Now()`. -/
def SaveMessage (env : Env) (db : DB) (now : Time) (message : Message) : Except String DB :=
  let message := if message.CreatedAt.IsZero then { message with CreatedAt := now } else message
  let message := if message.Timestamp.IsZero then { message with Timestamp := now } else message
  match env.execMessage db message with
  | .error err => .error ("failed to save message: " ++ err)
  | .ok db => .ok db

/-- The method `CommentRepository.CreateComment`. -/
def CreateComment (env : Env) (db : DB) (now : Time) (comment : Comment) : Except String DB :=
  let comment := if comment.CreatedAt.IsZero then { comment with CreatedAt := now } else comment
  let comment := if comment.UpdatedAt.IsZero then { comment with UpdatedAt := now } else comment
  match env.execComment db comment with
  | .error err => .error ("failed to create comment: " ++ err)
  | .ok db => .ok db

/-! ## Handlers -/

/-- A call made by a handler to a repository or to the hub, with its arguments. -/
inductive Call where
  | SaveMessage (message : Message)
  | CreateComment (comment : Comment)
  | JoinChatRoom (client : ClientInterface) (roomName : String)
  | SubscribeToPost (client : ClientInterface) (postID : String)
  | BroadcastToChatRoom (roomName : String) (event : Event)
  | BroadcastToPostSubscribers (postID : String) (event : Event)
  | SendToClient (client : ClientInterface) (event : Event)
  deriving DecidableEq, Repr

/-- Whether the call is one to the hub. -/
def Call.isHub : Call → Bool
  | .SaveMessage _ => false
  | .CreateComment _ => false
  | _ => true

/-- Whether the call is one to a repository. -/
def Call.isRepository (c : Call) : Bool := !c.isHub

/-- What a handler runs in: the hub and its clients, the database, the number of readings of
the clock so far, and the calls made so far to the repositories and to the hub, in order. -/
structure World where
  st : State
  db : DB
  clock : Nat
  calls : List Call

/-- How a handler ends: it returns its `error` (`none`: nil), or it panics. -/
inductive Result where
  | returned (err : Option String)
  | panicked (p : Panic)
  deriving DecidableEq, Repr

namespace World

/-- A reading of `time.Now()`. -/
def timeNow (env : Env) (w : World) : Time × World :=
  (Time.instant (env.now w.clock), { w with clock := w.clock + 1 })

/-- A call of `SaveMessage`. -/
def SaveMessage (env : Env) (w : World) (message : Message) : World × Option String :=
  let w := { w with calls := w.calls ++ [Call.SaveMessage message] }
  let (now, w) := w.timeNow env
  match WebsocketGin.SaveMessage env w.db now message with
  | .error err => (w, some err)
  | .ok db => ({ w with db := db }, none)

/-- A call of `CreateComment`. -/
def CreateComment (env : Env) (w : World) (comment : Comment) : World × Option String :=
  let w := { w with calls := w.calls ++ [Call.CreateComment comment] }
  let (now, w) := w.timeNow env
  match WebsocketGin.CreateComment env w.db now comment with
  | .error err => (w, some err)
  | .ok db => ({ w with db := db }, none)

/-- A call of `JoinChatRoom`. -/
def JoinChatRoom (w : World) (client : ClientInterface) (roomName : String) : World :=
  { w with
    st := WebsocketGin.JoinChatRoom w.st client roomName
    calls := w.calls ++ [Call.JoinChatRoom client roomName] }

/-- A call of `SubscribeToPost`. -/
def SubscribeToPost (w : World) (client : ClientInterface) (postID : String) : World :=
  { w with
    st := WebsocketGin.SubscribeToPost w.st client postID
    calls := w.calls ++ [Call.SubscribeToPost client postID] }

/-- A call of `BroadcastToChatRoom`; a panic leaves the world as it was at the call. -/
def BroadcastToChatRoom (env : Env) (w : World) (roomName : String) (event : Event) :
    World × Option Panic :=
  let w := { w with calls := w.calls ++ [Call.BroadcastToChatRoom roomName event] }
  match WebsocketGin.BroadcastToChatRoom env w.st roomName event with
  | .error p => (w, some p)
  | .ok st => ({ w with st := st }, none)

/-- A call of `BroadcastToPostSubscribers`; a panic leaves the world as it was at the call. -/
def BroadcastToPostSubscribers (env : Env) (w : World) (postID : String) (event : Event) :
    World × Option Panic :=
  let w := { w with calls := w.calls ++ [Call.BroadcastToPostSubscribers postID event] }
  match WebsocketGin.BroadcastToPostSubscribers env w.st postID event with
  | .error p => (w, some p)
  | .ok st => ({ w with st := st }, none)

/-- A call of `SendToClient`; a panic leaves the world as it was at the call. -/
def SendToClient (env : Env) (w : World) (client : ClientInterface) (event : Event) :
    World × Result :=
  let w := { w with calls := w.calls ++ [Call.SendToClient client event] }
  match WebsocketGin.SendToClient env w.st client event with
  | .error p => (w, .panicked p)
  | .ok (st, err) => ({ w with st := st }, .returned err)

end World

/-- The function `fmt.Sprintf("msg_%d", time.Now().UnixNano())`. -/
def generateMessageID (env : Env) (w : World) : String × World :=
  match w.timeNow env with
  | (.instant n, w) => ("msg_" ++ toString n, w)
  | (.zero, w) => ("msg_", w)

/-- The function `fmt.Sprintf("comment_%d", time.Now().UnixNano())`. -/
def generateCommentID (env : Env) (w : World) : String × World :=
  match w.timeNow env with
  | (.instant n, w) => ("comment_" ++ toString n, w)
  | (.zero, w) => ("comment_", w)

/-- The method `HandleJoinRoom` (`handlers/rooms/handler.go`). -/
def HandleJoinRoom (env : Env) (w : World) (client : ClientInterface) (messageBytes : Bytes) :
    World × Result :=
  match env.unmarshalJoinRoom messageBytes with
  | .error err => (w, .returned (some ("invalid JOIN_ROOM event: " ++ err)))
  | .ok event =>
    match ValidateJoinRoom env event with
    | some err => (w, .returned (some err))
    | none =>
      let event := if event.User = "" then { event with User := client.GetUsername w.st } else event
      let w := w.JoinChatRoom client event.Room
      let response : RoomJoinedEvent :=
        { Type_ := "ROOM_JOINED", Room := event.Room, User := client.GetUsername w.st }
      w.SendToClient env client (.roomJoined response)

/-- The method `HandleChatMessage` (`handlers/chat/handler.go`). -/
def HandleChatMessage (env : Env) (w : World) (client : ClientInterface) (messageBytes : Bytes) :
    World × Result :=
  match env.unmarshalChatMessage messageBytes with
  | .error err => (w, .returned (some ("invalid CHAT_MESSAGE event: " ++ err)))
  | .ok event =>
    match ValidateChatMessage event with
    | some err => (w, .returned (some err))
    | none =>
      let event := if event.User = "" then { event with User := client.GetUsername w.st } else event
      let (now, w) := w.timeNow env
      let (id, w) := generateMessageID env w
      let message : Message :=
        { ID := id, Username := event.User, Content := event.Message, RoomID := event.Room,
          Type_ := "chat", Timestamp := now, CreatedAt := now }
      match w.SaveMessage env message with
      | (w, some err) => (w, .returned (some ("failed to save message: " ++ err)))
      | (w, none) =>
        match w.BroadcastToChatRoom env event.Room (.chatMessage event) with
        | (w, some p) => (w, .panicked p)
        | (w, none) => (w, .returned none)

/-- The method `HandlePostComment` (`handlers/comments/handler.go`). -/
def HandlePostComment (env : Env) (w : World) (client : ClientInterface) (messageBytes : Bytes) :
    World × Result :=
  match env.unmarshalPostComment messageBytes with
  | .error err => (w, .returned (some ("invalid POST_COMMENT event: " ++ err)))
  | .ok event =>
    match ValidatePostComment event with
    | some err => (w, .returned (some err))
    | none =>
      let event := if event.User = "" then { event with User := client.GetUsername w.st } else event
      let (id, w) := generateCommentID env w
      let (createdAt, w) := w.timeNow env
      let (updatedAt, w) := w.timeNow env
      let comment : Comment :=
        { ID := id, PostID := event.PostID, Content := event.Comment, AuthorID := "",
          AuthorName := event.User, CreatedAt := createdAt, UpdatedAt := updatedAt }
      match w.CreateComment env comment with
      | (w, some err) => (w, .returned (some ("failed to save comment: " ++ err)))
      | (w, none) =>
        let w := w.SubscribeToPost client event.PostID
        match w.BroadcastToPostSubscribers env event.PostID (.postComment event) with
        | (w, some p) => (w, .panicked p)
        | (w, none) => (w, .returned none)

/-! ## Event router -/

/-- The constant `EventJoinRoom` (`events.go`). -/
def EventJoinRoom : String := "JOIN_ROOM"

/-- The constant `EventChatMessage` (`events.go`). -/
def EventChatMessage : String := "CHAT_MESSAGE"

/-- The constant `EventPostComment` (`events.go`). -/
def EventPostComment : String := "POST_COMMENT"

/-- The constant `EventRoomJoined` (`events.go`). -/
def EventRoomJoined : String := "ROOM_JOINED"

/-- The constant `EventError` (`events.go`). -/
def EventError : String := "ERROR"

/-- Whether an object key names the field tagged `json:"type"`: `encoding/json` takes the
key that equals the tag, and also a key that equals it up to letter case. -/
def keyIsType (key : String) : Bool := key.data.map Char.toLower == "type".data

/-- The members of a JSON object decoded into `struct { Type string }`, in order: a string
under a key naming the field is stored, a `null` there is skipped, any other value there is
recorded as an `UnmarshalTypeError` (the first one is kept) and decoding goes on. -/
def decodeTypeMembers : List (String × Json) → String × Option String → String × Option String
  | [], acc => acc
  | (key, value) :: rest, (type_, err) =>
    if keyIsType key then
      match value with
      | .string s => decodeTypeMembers rest (s, err)
      | .null => decodeTypeMembers rest (type_, err)
      | other =>
        decodeTypeMembers rest (type_, err.orElse fun _ =>
          some ("json: cannot unmarshal " ++ other.kind
            ++ " into Go struct field .type of type string"))
    else decodeTypeMembers rest (type_, err)

/-- The call `json.Unmarshal(messageBytes, &baseEvent)` of `routeEvent`, where `baseEvent`
is a zero `struct { Type string }` with the tag `json:"type"`: the `Type` it leaves in
`baseEvent`, or the error it returns. -/
def unmarshalBaseEvent (env : Env) (messageBytes : Bytes) : Except String String :=
  match env.parse messageBytes with
  | .error err => .error err
  | .ok .null => .ok ""
  | .ok (.object members) =>
    match decodeTypeMembers members ("", none) with
    | (type_, none) => .ok type_
    | (_, some err) => .error err
  | .ok other =>
    .error ("json: cannot unmarshal " ++ other.kind
      ++ " into Go value of type struct \x7b Type string \"json:\\\"type\\\"\" \x7d")

/-- The method `routeEvent` (`event_router.go`). -/
def routeEvent (env : Env) (w : World) (client : ClientInterface) (messageBytes : Bytes) :
    World × Result :=
  match unmarshalBaseEvent env messageBytes with
  | .error err => (w, .returned (some ("invalid event format: " ++ err)))
  | .ok type_ =>
    if type_ = EventJoinRoom then HandleJoinRoom env w client messageBytes
    else if type_ = EventChatMessage then HandleChatMessage env w client messageBytes
    else if type_ = EventPostComment then HandlePostComment env w client messageBytes
    else (w, .returned (some ("unknown event type: " ++ type_)))

/-! ## What the handlers build -/

/-- The event after `if event.User == "" { event.User = client.GetUsername() }`. -/
def ChatMessageEvent.withUser (event : ChatMessageEvent) (username : String) : ChatMessageEvent :=
  if event.User = "" then { event with User := username } else event

/-- The event after `if event.User == "" { event.User = client.GetUsername() }`. -/
def PostCommentEvent.withUser (event : PostCommentEvent) (username : String) : PostCommentEvent :=
  if event.User = "" then { event with User := username } else event

/-- The record `HandleChatMessage` builds for a validated event, in the world the handler
was entered in. -/
def chatRecord (env : Env) (w : World) (client : ClientInterface) (event : ChatMessageEvent) :
    Message :=
  { ID := "msg_" ++ toString (env.now (w.clock + 1))
    Username := (event.withUser (client.GetUsername w.st)).User
    Content := event.Message
    RoomID := event.Room
    Type_ := "chat"
    Timestamp := Time.instant (env.now w.clock)
    CreatedAt := Time.instant (env.now w.clock) }

/-- The record `HandlePostComment` builds for a validated event, in the world the handler
was entered in. -/
def commentRecord (env : Env) (w : World) (client : ClientInterface) (event : PostCommentEvent) :
    Comment :=
  { ID := "comment_" ++ toString (env.now w.clock)
    PostID := event.PostID
    Content := event.Comment
    AuthorID := ""
    AuthorName := (event.withUser (client.GetUsername w.st)).User
    CreatedAt := Time.instant (env.now (w.clock + 1))
    UpdatedAt := Time.instant (env.now (w.clock + 2)) }

/-- The acknowledgement `HandleJoinRoom` sends. -/
def roomJoined (st : State) (client : ClientInterface) (event : JoinRoomEvent) : Event :=
  .roomJoined { Type_ := "ROOM_JOINED", Room := event.Room, User := client.GetUsername st }

/-! ## Observations -/

/-- Whether the client is in the member set stored under `name`. -/
def GroupMap.member (m : GroupMap) (name : String) (client : ClientId) : Bool :=
  match m name with
  | none => false
  | some members => members.contains client

/-- The size of the member set stored under `name` (0 when there is none). -/
def GroupMap.size (m : GroupMap) (name : String) : Nat :=
  match m name with
  | none => 0
  | some members => members.len

/-- The channel after one more message was queued at its tail. -/
def Chan.push (ch : Chan) (m : Bytes) : Chan := { ch with buf := ch.buf ++ [m] }

/-! ## Sample inputs -/

/-- The bytes of an ASCII text. -/
def ascii (s : String) : Bytes := s.data.map fun c => c.toNat.toUInt8

/-- The frame of the chat scenario of the specification. -/
def frameChatHi : Bytes :=
  ascii "\x7b\"type\":\"CHAT_MESSAGE\",\"room\":\"general\",\"user\":\"alice\",\"message\":\"hi\"\x7d"

/-- A chat frame with an empty message. -/
def frameChatEmpty : Bytes :=
  ascii "\x7b\"type\":\"CHAT_MESSAGE\",\"room\":\"general\",\"user\":\"alice\",\"message\":\"\"\x7d"

/-- A comment frame on the post `post-1`. -/
def frameComment : Bytes :=
  ascii "\x7b\"type\":\"POST_COMMENT\",\"post_id\":\"post-1\",\"user\":\"alice\",\"comment\":\"nice\"\x7d"

/-- The comment frame of the specification whose post id holds a space. -/
def frameCommentSpace : Bytes :=
  ascii "\x7b\"type\":\"POST_COMMENT\",\"post_id\":\"post 1\",\"user\":\"alice\",\"comment\":\"nice\"\x7d"

/-- A join frame for the reserved room `admin`. -/
def frameJoinAdmin : Bytes :=
  ascii "\x7b\"type\":\"JOIN_ROOM\",\"room\":\"admin\",\"user\":\"alice\"\x7d"

/-- A join frame for the room `General`. -/
def frameJoinGeneral : Bytes :=
  ascii "\x7b\"type\":\"JOIN_ROOM\",\"room\":\"General\",\"user\":\"alice\"\x7d"

/-- A join frame for the room name ` general `, with a space on each side. -/
def frameJoinSpaces : Bytes :=
  ascii "\x7b\"type\":\"JOIN_ROOM\",\"room\":\" general \",\"user\":\"alice\"\x7d"

/-- A join frame for the room `Admin`. -/
def frameJoinAdminCapital : Bytes :=
  ascii "\x7b\"type\":\"JOIN_ROOM\",\"room\":\"Admin\",\"user\":\"alice\"\x7d"

/-- The chat frame of the specification without its `type` member. -/
def frameNoType : Bytes :=
  ascii "\x7b\"room\":\"general\",\"user\":\"alice\",\"message\":\"hi\"\x7d"

/-- The chat frame of the specification with its discriminator in lower case. -/
def frameLowerType : Bytes :=
  ascii "\x7b\"type\":\"chat_message\",\"room\":\"general\",\"user\":\"alice\",\"message\":\"hi\"\x7d"

/-- A frame that is not JSON. -/
def frameNotJson : Bytes := ascii "hello"

/-- The chat event of `frameChatHi`. -/
def chatHi : ChatMessageEvent :=
  { Type_ := "CHAT_MESSAGE", Room := "general", User := "alice", Message := "hi" }

/-- The comment event of `frameComment`. -/
def commentNice : PostCommentEvent :=
  { Type_ := "POST_COMMENT", PostID := "post-1", User := "alice", Comment := "nice" }

/-- What `json.Marshal` writes for the event structs when no field needs escaping. -/
def sampleMarshal : Event → Except String Bytes
  | .chatMessage e =>
    .ok (ascii ("\x7b\"type\":\"" ++ e.Type_ ++ "\",\"room\":\"" ++ e.Room ++ "\",\"user\":\""
      ++ e.User ++ "\",\"message\":\"" ++ e.Message ++ "\"\x7d"))
  | .postComment e =>
    .ok (ascii ("\x7b\"type\":\"" ++ e.Type_ ++ "\",\"post_id\":\"" ++ e.PostID ++ "\",\"user\":\""
      ++ e.User ++ "\",\"comment\":\"" ++ e.Comment ++ "\"\x7d"))
  | .roomJoined e =>
    .ok (ascii ("\x7b\"type\":\"" ++ e.Type_ ++ "\",\"room\":\"" ++ e.Room ++ "\",\"user\":\""
      ++ e.User ++ "\"\x7d"))
  | .errorEvent e =>
    .ok (ascii ("\x7b\"type\":\"" ++ e.Type_ ++ "\",\"message\":\"" ++ e.Message ++ "\""
      ++ (if e.Code = "" then "" else ",\"code\":\"" ++ e.Code ++ "\"") ++ "\x7d"))
  | .other _ => .error "json: unsupported type"

/-- The JSON object whose members are strings. -/
def jsonStrings (members : List (String × String)) : Json :=
  .object (members.map fun m => (m.1, Json.string m.2))

/-- The values of the sample frames. -/
def sampleParse (b : Bytes) : Except String Json :=
  if b = frameChatHi then
    .ok (jsonStrings [("type", "CHAT_MESSAGE"), ("room", "general"), ("user", "alice"),
      ("message", "hi")])
  else if b = frameChatEmpty then
    .ok (jsonStrings [("type", "CHAT_MESSAGE"), ("room", "general"), ("user", "alice"),
      ("message", "")])
  else if b = frameComment then
    .ok (jsonStrings [("type", "POST_COMMENT"), ("post_id", "post-1"), ("user", "alice"),
      ("comment", "nice")])
  else if b = frameCommentSpace then
    .ok (jsonStrings [("type", "POST_COMMENT"), ("post_id", "post 1"), ("user", "alice"),
      ("comment", "nice")])
  else if b = frameJoinAdmin then
    .ok (jsonStrings [("type", "JOIN_ROOM"), ("room", "admin"), ("user", "alice")])
  else if b = frameJoinGeneral then
    .ok (jsonStrings [("type", "JOIN_ROOM"), ("room", "General"), ("user", "alice")])
  else if b = frameJoinAdminCapital then
    .ok (jsonStrings [("type", "JOIN_ROOM"), ("room", "Admin"), ("user", "alice")])
  else if b = frameJoinSpaces then
    .ok (jsonStrings [("type", "JOIN_ROOM"), ("room", " general "), ("user", "alice")])
  else if b = frameNoType then
    .ok (jsonStrings [("room", "general"), ("user", "alice"), ("message", "hi")])
  else if b = frameLowerType then
    .ok (jsonStrings [("type", "chat_message"), ("room", "general"), ("user", "alice"),
      ("message", "hi")])
  else .error "invalid character \x27h\x27 looking for beginning of value"

/-- ASCII white space. -/
def asciiSpace (c : Char) : Bool :=
  c == ' ' || c == '\t' || c == '\n' || c == '\r' || c.toNat == 11 || c.toNat == 12

/-- An environment for the sample inputs: the decoders know the sample frames, `toLower` and
`trimSpace` are those of Go on ASCII text, the clock ticks once per reading, and the database
accepts every row. -/
def sampleEnv : Env :=
  { marshal := sampleMarshal
    parse := sampleParse
    unmarshalJoinRoom := fun b =>
      if b = frameJoinAdmin then .ok { Type_ := "JOIN_ROOM", Room := "admin", User := "alice" }
      else if b = frameJoinGeneral then
        .ok { Type_ := "JOIN_ROOM", Room := "General", User := "alice" }
      else if b = frameJoinAdminCapital then
        .ok { Type_ := "JOIN_ROOM", Room := "Admin", User := "alice" }
      else if b = frameJoinSpaces then
        .ok { Type_ := "JOIN_ROOM", Room := " general ", User := "alice" }
      else .error "unexpected end of JSON input"
    unmarshalChatMessage := fun b =>
      if b = frameChatHi then .ok chatHi
      else if b = frameChatEmpty then .ok { chatHi with Message := "" }
      else if b = frameNoType then .ok { chatHi with Type_ := "" }
      else if b = frameLowerType then .ok { chatHi with Type_ := "chat_message" }
      else .error "unexpected end of JSON input"
    unmarshalPostComment := fun b =>
      if b = frameComment then .ok commentNice
      else if b = frameCommentSpace then .ok { commentNice with PostID := "post 1" }
      else .error "unexpected end of JSON input"
    toLower := fun s => ⟨s.data.map Char.toLower⟩
    trimSpace := fun s => ⟨((s.data.dropWhile asciiSpace).reverse.dropWhile asciiSpace).reverse⟩
    now := fun n => 1700000000000000000 + n
    execMessage := fun db m => .ok { db with messages := db.messages ++ [m] }
    execComment := fun db c => .ok { db with comments := db.comments ++ [c] } }

/-- The sample environment with a database that refuses every row. -/
def failingEnv : Env :=
  { sampleEnv with
    execMessage := fun _ _ => .error "database is locked"
    execComment := fun _ _ => .error "database is locked" }

/-- A new hub whose clients all carry the default display name. -/
def sampleState : State := State.init fun _ => "anonymous"

/-- The world of a freshly started server. -/
def sampleWorld : World :=
  { st := sampleState, db := { messages := [], comments := [] }, clock := 0, calls := [] }

/-- The event broadcast in the sample runs. -/
def hello : Event := .chatMessage chatHi

/-- A client that connects, joins `general` and does not read while 257 messages are
broadcast to the room: the 257th finds its queue full. -/
def evictLastMemberOps : List Op :=
  [.register 0, .joinRoom (.client 0) "general"]
    ++ List.replicate 257 (.broadcastRoom "general" hello)

/-- The run `evictLastMemberOps`, after which the client's connection ends. -/
def doubleCloseOps : List Op := evictLastMemberOps ++ [.unregister 0]

/-- A client that joins `general` and `random` and follows `post-1`, a second client that
joins `random`; the first does not read while 257 messages are broadcast to `general`. -/
def evictOps : List Op :=
  [.register 0, .register 1, .joinRoom (.client 0) "general", .joinRoom (.client 0) "random",
    .subscribe (.client 0) "post-1", .joinRoom (.client 1) "random"]
    ++ List.replicate 257 (.broadcastRoom "general" hello)

/-- Two registered clients, both members of `general`, with empty queues. -/
def twoMembers : State :=
  JoinChatRoom
    (JoinChatRoom (handleClientRegister (handleClientRegister sampleState 0) 1)
      (.client 0) "general")
    (.client 1) "general"

/-- A new hub whose clients all have 256 messages waiting in their queues. -/
def fullQueueState : State :=
  { sampleState with
    send := fun _ => { buf := List.replicate 256 frameChatHi, cap := sendBufferSize, closed := false } }

/-- The character class `[a-z0-9_-]`. -/
def isLowerNameChar (c : Char) : Bool :=
  (decide ('a' ≤ c) && decide (c ≤ 'z')) || (decide ('0' ≤ c) && decide (c ≤ '9'))
    || c == '_' || c == '-'

/-- A text of `n` letters `é`, each two bytes long in UTF-8. -/
def accented (n : Nat) : String := ⟨List.replicate n 'é'⟩

/-- A chat event whose message has 501 characters and 1002 bytes. -/
def chatAccented : ChatMessageEvent := { chatHi with Message := accented 501 }

/-- A comment event whose comment has 1001 characters and 2002 bytes. -/
def commentAccented : PostCommentEvent := { commentNice with Comment := accented 1001 }

/-- A chat event whose room holds a space and a slash. -/
def chatOddRoom : ChatMessageEvent := { chatHi with Room := "my room/1" }

/-- A chat event with a room of 50 letters and a message of 1000 letters. -/
def chatAtLimits : ChatMessageEvent :=
  { chatHi with Room := ⟨List.replicate 50 'a'⟩, Message := ⟨List.replicate 1000 'x'⟩ }

/-! ## Connection loops (`connection.go`, `client_methods.go`) -/

/-- The constant `time.Second`, in nanoseconds. -/
def Second : Nat := 1000000000

/-- The constant `writeWait`. -/
def writeWait : Nat := 10 * Second

/-- The constant `pongWait`. -/
def pongWait : Nat := 60 * Second

/-- The constant `pingPeriod`. -/
def pingPeriod : Nat := (pongWait * 9) / 10

/-- The constant `maxMessageSize`. -/
def maxMessageSize : Nat := 1024

/-- The function `shared.NewErrorEvent`; the `Code` it leaves empty is omitted by
`json.Marshal` (`omitempty`). -/
def NewErrorEvent (message : String) : ErrorEvent :=
  { Type_ := "ERROR", Message := message, Code := "" }

/-- The method `Client.SendError`: the error `SendToClient` returns is dropped. -/
def SendError (env : Env) (w : World) (c : ClientId) (message : String) :
    World × Option Panic :=
  match w.SendToClient env (.client c) (.errorEvent (NewErrorEvent message)) with
  | (w, .panicked p) => (w, some p)
  | (w, .returned _) => (w, none)

/-- The method `Client.handleEvent`. -/
def handleEvent (env : Env) (w : World) (c : ClientId) (messageBytes : Bytes) : World × Result :=
  routeEvent env w (.client c) messageBytes

/-- What one call of `c.conn.ReadMessage()` returns. -/
inductive ReadMessage where
  | message (messageBytes : Bytes)
  | err
  deriving DecidableEq, Repr

/-- Where `readPump` stands after the reads it was given: waiting for the next frame,
returned after handing the client to `unregister`, or stopped by a panic. -/
inductive PumpEnd where
  | reading
  | unregistered
  | panicked (p : Panic)
  deriving DecidableEq, Repr

/-- The method `Client.readPump` over the successive results of `ReadMessage`.  The
deferred `c.hub.unregister <- c` is answered by `handleClientUnregister`. -/
def readPump (env : Env) (c : ClientId) : World → List ReadMessage → World × PumpEnd
  | w, [] => (w, .reading)
  | w, .err :: _ =>
    match handleClientUnregister w.st c with
    | .error p => (w, .panicked p)
    | .ok st => ({ w with st := st }, .unregistered)
  | w, .message messageBytes :: reads =>
    match handleEvent env w c messageBytes with
    | (w, .panicked p) => (w, .panicked p)
    | (w, .returned none) => readPump env c w reads
    | (w, .returned (some err)) =>
      match SendError env w c err with
      | (w, some p) => (w, .panicked p)
      | (w, none) => readPump env c w reads

/-- The byte `'\n'`. -/
def newline : UInt8 := 10

/-- The loop `for i := 0; i < n; i++ { w.Write([]byte{'\n'}); w.Write(<-c.send) }` of
`writePump`: the bytes written so far and the queue, after `n` rounds.  The loop is entered
with `n = len(c.send)`, so the queue never runs out. -/
def drainQueued : Nat → Bytes → List Bytes → Bytes × List Bytes
  | 0, w, queue => (w, queue)
  | _ + 1, w, [] => (w, [])
  | n + 1, w, message :: queue => drainQueued n (w ++ [newline] ++ message) queue

/-- How the `case message, ok := <-c.send` branch of `writePump` ends. -/
inductive WriteStep where
  | blocked
  | closeMessage
  | failed (ch : Chan)
  | wrote (frame : Bytes) (ch : Chan)
  deriving DecidableEq, Repr

/-- The `case message, ok := <-c.send` branch of `writePump`: with nothing queued the
receive blocks on an open queue and yields `ok == false` on a closed one (a close message is
written and the pump returns); otherwise one message is received, the messages queued behind
it are added to the same frame, and the frame is closed.  The two flags say whether
`NextWriter` and `w.Close` succeed. -/
def writePumpSend (nextWriterOk closeOk : Bool) (ch : Chan) : WriteStep :=
  match ch.buf with
  | [] => if ch.closed then .closeMessage else .blocked
  | message :: queue =>
    if nextWriterOk then
      match drainQueued queue.length message queue with
      | (w, queue) =>
        if closeOk then .wrote w { ch with buf := queue } else .failed { ch with buf := queue }
    else .failed { ch with buf := queue }

/-! ## Lock discipline of the hub methods -/

/-- The two locks of the hub: `roomsMutex` guards the room map and its member sets,
`postMutex` the subscriber map and its member sets. -/
inductive Mutex where
  | roomsMutex
  | postMutex
  deriving DecidableEq, Repr

/-- What a hub method does, in program order, to a lock or to the data it guards: the four
lock operations, a read of the guarded data (a map lookup, a key yielded by `range`), a write
to it (an insert, a `delete`). -/
inductive Access where
  | RLock (m : Mutex)
  | RUnlock (m : Mutex)
  | Lock (m : Mutex)
  | Unlock (m : Mutex)
  | read (m : Mutex)
  | write (m : Mutex)
  deriving DecidableEq, Repr

/-- The accesses of the send loop of a broadcast, which follows `broadcastLoop`: every key
yielded by `range` is a read of the member set, every `delete(members, client)` a write. -/
def broadcastLoopAccesses (m : Mutex) (eventBytes : Bytes) :
    List ClientId → (ClientId → Chan) → List Access
  | [], _ => []
  | client :: rest, send =>
    Access.read m ::
      match (send client).trySend eventBytes with
      | .error _ => []
      | .ok (some ch) => broadcastLoopAccesses m eventBytes rest (Function.update send client ch)
      | .ok none =>
        Access.write m ::
          match (send client).close with
          | .error _ => []
          | .ok ch => broadcastLoopAccesses m eventBytes rest (Function.update send client ch)

/-- The accesses of `BroadcastToChatRoom`: `RLock`, the lookup, `RUnlock`, then the loop. -/
def BroadcastToChatRoomAccesses (env : Env) (st : State) (roomName : String) (event : Event) :
    List Access :=
  [.RLock .roomsMutex, .read .roomsMutex, .RUnlock .roomsMutex] ++
    match st.hub.chatRooms roomName with
    | none => []
    | some roomClients =>
      match env.marshal event with
      | .error _ => []
      | .ok eventBytes => broadcastLoopAccesses .roomsMutex eventBytes roomClients.keys st.send

/-- The accesses of `BroadcastToPostSubscribers`. -/
def BroadcastToPostSubscribersAccesses (env : Env) (st : State) (postID : String)
    (event : Event) : List Access :=
  [.RLock .postMutex, .read .postMutex, .RUnlock .postMutex] ++
    match st.hub.postSubscribers postID with
    | none => []
    | some postClients =>
      match env.marshal event with
      | .error _ => []
      | .ok eventBytes => broadcastLoopAccesses .postMutex eventBytes postClients.keys st.send

/-- The accesses of `JoinChatRoom`: `Lock`, the lookup, the creation of a missing entry, the
insert, and the deferred `Unlock`. -/
def JoinChatRoomAccesses (st : State) (client : ClientInterface) (roomName : String) :
    List Access :=
  match client.asClient with
  | none => []
  | some _ =>
    [.Lock .roomsMutex, .read .roomsMutex]
      ++ (if st.hub.chatRooms roomName = none then [.write .roomsMutex] else [])
      ++ [.write .roomsMutex, .Unlock .roomsMutex]

/-- Whether a sequence of accesses keeps the discipline of lock `m`, starting with the read
lock held or not (`r`) and the write lock held or not (`w`): the guarded data is read only
with the read or the write lock held, and written only with the write lock held. -/
def keepsDiscipline (m : Mutex) : List Access → Bool → Bool → Bool
  | [], _, _ => true
  | .RLock m' :: rest, r, w => keepsDiscipline m rest (r || m' == m) w
  | .RUnlock m' :: rest, r, w => keepsDiscipline m rest (r && m' != m) w
  | .Lock m' :: rest, r, w => keepsDiscipline m rest r (w || m' == m)
  | .Unlock m' :: rest, r, w => keepsDiscipline m rest r (w && m' != m)
  | .read m' :: rest, r, w => (m' != m || r || w) && keepsDiscipline m rest r w
  | .write m' :: rest, r, w => (m' != m || w) && keepsDiscipline m rest r w

/-! ## More sample inputs -/

/-- The state the run `evictOps` ends in: client 0 was evicted from `general`. -/
def evictedState : State :=
  match run sampleEnv sampleState evictOps with
  | .ok st => st
  | .error _ => sampleState

/-- The sample environment with a clock that started later. -/
def laterEnv : Env := { sampleEnv with now := fun n => 1800000000000000000 + n }

/-- The calls of a trace that are broadcasts, with their events. -/
def broadcastEvents : List Call → List Event
  | [] => []
  | .BroadcastToChatRoom _ event :: rest => event :: broadcastEvents rest
  | .BroadcastToPostSubscribers _ event :: rest => event :: broadcastEvents rest
  | _ :: rest => broadcastEvents rest

/-- A client that connects and does not read while 256 messages are sent to it. -/
def slowReaderOps : List Op :=
  [.register 0] ++ List.replicate 256 (.sendDirect (.client 0) hello)

/-- The state after `slowReaderOps`: the queue of the client is full and open. -/
def slowReader : State :=
  match run sampleEnv sampleState slowReaderOps with
  | .ok st => st
  | .error _ => sampleState

/-! ## The handlers on decoded frames -/

theorem ChatMessageEvent.withUser_Room (event : ChatMessageEvent) (u : String) :
    (event.withUser u).Room = event.Room := by
  unfold ChatMessageEvent.withUser; split <;> rfl

theorem ChatMessageEvent.withUser_Message (event : ChatMessageEvent) (u : String) :
    (event.withUser u).Message = event.Message := by
  unfold ChatMessageEvent.withUser; split <;> rfl

theorem PostCommentEvent.withUser_PostID (event : PostCommentEvent) (u : String) :
    (event.withUser u).PostID = event.PostID := by
  unfold PostCommentEvent.withUser; split <;> rfl

theorem PostCommentEvent.withUser_Comment (event : PostCommentEvent) (u : String) :
    (event.withUser u).Comment = event.Comment := by
  unfold PostCommentEvent.withUser; split <;> rfl

/-- What `HandleChatMessage` does on a frame whose event passes validation. -/
theorem HandleChatMessage_valid (env : Env) (w : World) (client : ClientInterface)
    (frame : Bytes) (event : ChatMessageEvent)
    (hd : env.unmarshalChatMessage frame = .ok event) (hv : ValidateChatMessage event = none) :
    HandleChatMessage env w client frame =
      match SaveMessage env w.db (Time.instant (env.now (w.clock + 2)))
          (chatRecord env w client event) with
      | .error err =>
        ({ w with
            clock := w.clock + 3
            calls := w.calls ++ [Call.SaveMessage (chatRecord env w client event)] },
          .returned (some ("failed to save message: " ++ err)))
      | .ok db =>
        match BroadcastToChatRoom env w.st event.Room
            (.chatMessage (event.withUser (client.GetUsername w.st))) with
        | .error p =>
          ({ st := w.st, db := db, clock := w.clock + 3,
             calls := w.calls ++ [Call.SaveMessage (chatRecord env w client event),
               Call.BroadcastToChatRoom event.Room
                 (.chatMessage (event.withUser (client.GetUsername w.st)))] },
            .panicked p)
        | .ok st =>
          ({ st := st, db := db, clock := w.clock + 3,
             calls := w.calls ++ [Call.SaveMessage (chatRecord env w client event),
               Call.BroadcastToChatRoom event.Room
                 (.chatMessage (event.withUser (client.GetUsername w.st)))] },
            .returned none) := by
  have hrec : ∀ ev : ChatMessageEvent, ev = event.withUser (client.GetUsername w.st) →
      ({ ID := "msg_" ++ toString (env.now (w.clock + 1)), Username := ev.User,
         Content := ev.Message, RoomID := ev.Room, Type_ := "chat",
         Timestamp := Time.instant (env.now w.clock),
         CreatedAt := Time.instant (env.now w.clock) } : Message)
        = chatRecord env w client event := by
    intro ev hev
    subst hev
    simp only [chatRecord, ChatMessageEvent.withUser_Room, ChatMessageEvent.withUser_Message]
  simp only [HandleChatMessage, hd, hv, World.timeNow, generateMessageID, World.SaveMessage,
    World.BroadcastToChatRoom]
  rw [show (if event.User = "" then { event with User := client.GetUsername w.st } else event)
      = event.withUser (client.GetUsername w.st) from rfl]
  rw [hrec _ rfl, ChatMessageEvent.withUser_Room]
  cases hs : SaveMessage env w.db (Time.instant (env.now (w.clock + 1 + 1)))
      (chatRecord env w client event) with
  | error e => simp [hs]
  | ok db =>
    simp only [hs]
    cases hb : BroadcastToChatRoom env w.st event.Room
        (Event.chatMessage (event.withUser (client.GetUsername w.st))) with
    | error p => simp [hb]
    | ok st => simp [hb]

/-- What `HandlePostComment` does on a frame whose event passes validation. -/
theorem HandlePostComment_valid (env : Env) (w : World) (client : ClientInterface)
    (frame : Bytes) (event : PostCommentEvent)
    (hd : env.unmarshalPostComment frame = .ok event) (hv : ValidatePostComment event = none) :
    HandlePostComment env w client frame =
      match CreateComment env w.db (Time.instant (env.now (w.clock + 3)))
          (commentRecord env w client event) with
      | .error err =>
        ({ w with
            clock := w.clock + 4
            calls := w.calls ++ [Call.CreateComment (commentRecord env w client event)] },
          .returned (some ("failed to save comment: " ++ err)))
      | .ok db =>
        match BroadcastToPostSubscribers env (SubscribeToPost w.st client event.PostID)
            event.PostID (.postComment (event.withUser (client.GetUsername w.st))) with
        | .error p =>
          ({ st := SubscribeToPost w.st client event.PostID, db := db, clock := w.clock + 4,
             calls := w.calls ++ [Call.CreateComment (commentRecord env w client event),
               Call.SubscribeToPost client event.PostID,
               Call.BroadcastToPostSubscribers event.PostID
                 (.postComment (event.withUser (client.GetUsername w.st)))] },
            .panicked p)
        | .ok st =>
          ({ st := st, db := db, clock := w.clock + 4,
             calls := w.calls ++ [Call.CreateComment (commentRecord env w client event),
               Call.SubscribeToPost client event.PostID,
               Call.BroadcastToPostSubscribers event.PostID
                 (.postComment (event.withUser (client.GetUsername w.st)))] },
            .returned none) := by
  have hrec : ∀ ev : PostCommentEvent, ev = event.withUser (client.GetUsername w.st) →
      ({ ID := "comment_" ++ toString (env.now w.clock), PostID := ev.PostID,
         Content := ev.Comment, AuthorID := "", AuthorName := ev.User,
         CreatedAt := Time.instant (env.now (w.clock + 1)),
         UpdatedAt := Time.instant (env.now (w.clock + 1 + 1)) } : Comment)
        = commentRecord env w client event := by
    intro ev hev
    subst hev
    simp only [commentRecord, PostCommentEvent.withUser_PostID,
      PostCommentEvent.withUser_Comment]
  simp only [HandlePostComment, hd, hv, World.timeNow, generateCommentID, World.CreateComment,
    World.BroadcastToPostSubscribers, World.SubscribeToPost]
  rw [show (if event.User = "" then { event with User := client.GetUsername w.st } else event)
      = event.withUser (client.GetUsername w.st) from rfl]
  rw [hrec _ rfl, PostCommentEvent.withUser_PostID]
  cases hs : CreateComment env w.db (Time.instant (env.now (w.clock + 1 + 1 + 1)))
      (commentRecord env w client event) with
  | error e => simp [hs]
  | ok db =>
    simp only [hs]
    cases hb : BroadcastToPostSubscribers env (SubscribeToPost w.st client event.PostID)
        event.PostID (Event.postComment (event.withUser (client.GetUsername w.st))) with
    | error p => simp [hb]
    | ok st => simp [hb]

/-- Joining a room does not change a display name. -/
theorem GetUsername_JoinChatRoom (st : State) (client other : ClientInterface) (room : String) :
    other.GetUsername (JoinChatRoom st client room) = other.GetUsername st := by
  cases client <;> cases other <;>
    simp [ClientInterface.GetUsername, JoinChatRoom, ClientInterface.asClient]

/-- What `HandleJoinRoom` does on a frame whose event passes validation. -/
theorem HandleJoinRoom_valid (env : Env) (w : World) (client : ClientInterface)
    (frame : Bytes) (event : JoinRoomEvent)
    (hd : env.unmarshalJoinRoom frame = .ok event) (hv : ValidateJoinRoom env event = none) :
    HandleJoinRoom env w client frame =
      match SendToClient env (JoinChatRoom w.st client event.Room) client
          (roomJoined w.st client event) with
      | .error p =>
        ({ w with
            st := JoinChatRoom w.st client event.Room
            calls := w.calls ++ [Call.JoinChatRoom client event.Room,
              Call.SendToClient client (roomJoined w.st client event)] },
          .panicked p)
      | .ok (st, err) =>
        ({ w with
            st := st
            calls := w.calls ++ [Call.JoinChatRoom client event.Room,
              Call.SendToClient client (roomJoined w.st client event)] },
          .returned err) := by
  by_cases hz : event.User = "" <;>
    simp only [HandleJoinRoom, hd, hv, hz, World.JoinChatRoom, World.SendToClient, if_true,
      if_false, GetUsername_JoinChatRoom, roomJoined] <;>
    cases hb : SendToClient env (JoinChatRoom w.st client event.Room) client _ with
    | error p => simp [hb]
    | ok r => simp [hb]

/-! ## C1, C2: validation and persistence come before every hub operation -/

/-- C1. On a frame that passes validation, the first call `HandleChatMessage` makes is
`SaveMessage`, and every later call is a hub call; when that save returns an error the
handler returns an error, has made no other call, and leaves the hub, every queue and the
database as they were.  The same holds for `HandlePostComment` and `CreateComment`. -/
theorem save_precedes_hub_operations (env : Env) (w : World) (client : ClientInterface)
    (frame : Bytes) :
    (∀ event, env.unmarshalChatMessage frame = .ok event → ValidateChatMessage event = none →
      (∃ rest, (HandleChatMessage env w client frame).1.calls
            = w.calls ++ Call.SaveMessage (chatRecord env w client event) :: rest
          ∧ rest.all Call.isHub = true) ∧
      ∀ err, SaveMessage env w.db (Time.instant (env.now (w.clock + 2)))
          (chatRecord env w client event) = .error err →
        (HandleChatMessage env w client frame).2
            = .returned (some ("failed to save message: " ++ err))
        ∧ (HandleChatMessage env w client frame).1.calls
            = w.calls ++ [Call.SaveMessage (chatRecord env w client event)]
        ∧ (HandleChatMessage env w client frame).1.st = w.st
        ∧ (HandleChatMessage env w client frame).1.db = w.db) ∧
    (∀ event, env.unmarshalPostComment frame = .ok event → ValidatePostComment event = none →
      (∃ rest, (HandlePostComment env w client frame).1.calls
            = w.calls ++ Call.CreateComment (commentRecord env w client event) :: rest
          ∧ rest.all Call.isHub = true) ∧
      ∀ err, CreateComment env w.db (Time.instant (env.now (w.clock + 3)))
          (commentRecord env w client event) = .error err →
        (HandlePostComment env w client frame).2
            = .returned (some ("failed to save comment: " ++ err))
        ∧ (HandlePostComment env w client frame).1.calls
            = w.calls ++ [Call.CreateComment (commentRecord env w client event)]
        ∧ (HandlePostComment env w client frame).1.st = w.st
        ∧ (HandlePostComment env w client frame).1.db = w.db) := by
  constructor
  · intro event hd hv
    rw [HandleChatMessage_valid env w client frame event hd hv]
    cases hs : SaveMessage env w.db (Time.instant (env.now (w.clock + 2)))
        (chatRecord env w client event) with
    | error e =>
      refine ⟨⟨[], rfl, rfl⟩, ?_⟩
      intro err herr
      cases herr
      exact ⟨rfl, rfl, rfl, rfl⟩
    | ok db =>
      refine ⟨?_, fun err herr => by cases herr⟩
      cases hb : BroadcastToChatRoom env w.st event.Room
          (Event.chatMessage (event.withUser (client.GetUsername w.st))) with
      | error p => exact ⟨[Call.BroadcastToChatRoom _ _], rfl, rfl⟩
      | ok st => exact ⟨[Call.BroadcastToChatRoom _ _], rfl, rfl⟩
  · intro event hd hv
    rw [HandlePostComment_valid env w client frame event hd hv]
    cases hs : CreateComment env w.db (Time.instant (env.now (w.clock + 3)))
        (commentRecord env w client event) with
    | error e =>
      refine ⟨⟨[], rfl, rfl⟩, ?_⟩
      intro err herr
      cases herr
      exact ⟨rfl, rfl, rfl, rfl⟩
    | ok db =>
      refine ⟨?_, fun err herr => by cases herr⟩
      cases hb : BroadcastToPostSubscribers env (SubscribeToPost w.st client event.PostID)
          event.PostID (Event.postComment (event.withUser (client.GetUsername w.st))) with
      | error p =>
        exact ⟨[Call.SubscribeToPost _ _, Call.BroadcastToPostSubscribers _ _], rfl, rfl⟩
      | ok st =>
        exact ⟨[Call.SubscribeToPost _ _, Call.BroadcastToPostSubscribers _ _], rfl, rfl⟩

/-- C1 at the chat scenario of the specification and at a comment on `post-1`, with a
database that refuses the row: the handlers return the error and the hub is untouched. -/
theorem save_precedes_hub_operations_witness :
    ((HandleChatMessage failingEnv sampleWorld (.client 0) frameChatHi).2
        = .returned (some ("failed to save message: "
            ++ "failed to save message: database is locked"))
      ∧ (HandleChatMessage failingEnv sampleWorld (.client 0) frameChatHi).1.calls
        = sampleWorld.calls
            ++ [Call.SaveMessage (chatRecord failingEnv sampleWorld (.client 0) chatHi)]
      ∧ (HandleChatMessage failingEnv sampleWorld (.client 0) frameChatHi).1.st = sampleWorld.st
      ∧ (HandleChatMessage failingEnv sampleWorld (.client 0) frameChatHi).1.db = sampleWorld.db) ∧
    ((HandlePostComment failingEnv sampleWorld (.client 0) frameComment).2
        = .returned (some ("failed to save comment: "
            ++ "failed to create comment: database is locked"))
      ∧ (HandlePostComment failingEnv sampleWorld (.client 0) frameComment).1.calls
        = sampleWorld.calls
            ++ [Call.CreateComment (commentRecord failingEnv sampleWorld (.client 0) commentNice)]
      ∧ (HandlePostComment failingEnv sampleWorld (.client 0) frameComment).1.st = sampleWorld.st
      ∧ (HandlePostComment failingEnv sampleWorld (.client 0) frameComment).1.db = sampleWorld.db) :=
  ⟨((save_precedes_hub_operations failingEnv sampleWorld (.client 0) frameChatHi).1 chatHi
      rfl (by decide)).2 _ rfl,
   ((save_precedes_hub_operations failingEnv sampleWorld (.client 0) frameComment).2 commentNice
      rfl (by decide)).2 _ rfl⟩

/-- C2. On a frame whose decoded payload its validator rejects, each of `HandleJoinRoom`,
`HandleChatMessage` and `HandlePostComment` returns exactly the validator's error and leaves
the world as it was: no repository call, no hub call, no change to the hub, the queues or
the database. -/
theorem rejected_payload_has_no_effect (env : Env) (w : World) (client : ClientInterface)
    (frame : Bytes) :
    (∀ event err, env.unmarshalJoinRoom frame = .ok event →
      ValidateJoinRoom env event = some err →
      HandleJoinRoom env w client frame = (w, .returned (some err))) ∧
    (∀ event err, env.unmarshalChatMessage frame = .ok event →
      ValidateChatMessage event = some err →
      HandleChatMessage env w client frame = (w, .returned (some err))) ∧
    (∀ event err, env.unmarshalPostComment frame = .ok event →
      ValidatePostComment event = some err →
      HandlePostComment env w client frame = (w, .returned (some err))) := by
  refine ⟨?_, ?_, ?_⟩
  · intro event err hd hv
    simp only [HandleJoinRoom, hd, hv]
  · intro event err hd hv
    simp only [HandleChatMessage, hd, hv]
  · intro event err hd hv
    simp only [HandlePostComment, hd, hv]

/-- C2 at a join of the reserved room `admin`, a chat frame with an empty message and the
comment of the specification whose post id is `post 1`. -/
theorem rejected_payload_has_no_effect_witness :
    HandleJoinRoom sampleEnv sampleWorld (.client 0) frameJoinAdmin
        = (sampleWorld, .returned (some "room name \x27admin\x27 is reserved")) ∧
    HandleChatMessage sampleEnv sampleWorld (.client 0) frameChatEmpty
        = (sampleWorld, .returned (some "message content is required")) ∧
    HandlePostComment sampleEnv sampleWorld (.client 0) frameCommentSpace
        = (sampleWorld, .returned
            (some "invalid post_id format (only alphanumeric, dash, underscore allowed)")) :=
  ⟨(rejected_payload_has_no_effect sampleEnv sampleWorld (.client 0) frameJoinAdmin).1
      { Type_ := "JOIN_ROOM", Room := "admin", User := "alice" } _ rfl (by decide),
   (rejected_payload_has_no_effect sampleEnv sampleWorld (.client 0) frameChatEmpty).2.1
      { chatHi with Message := "" } _ rfl (by decide),
   (rejected_payload_has_no_effect sampleEnv sampleWorld (.client 0) frameCommentSpace).2.2
      { commentNice with PostID := "post 1" } _ rfl (by decide)⟩

/-! ## Sets of clients and membership maps -/

theorem ClientSet.ext_keys {s t : ClientSet} (h : s.keys = t.keys) : s = t := by
  cases s; cases t; cases h; rfl

theorem ClientSet.contains_iff (s : ClientSet) (c : ClientId) :
    s.contains c = true ↔ c ∈ s.keys := by
  simp [ClientSet.contains]

theorem ClientSet.contains_eq_false_iff (s : ClientSet) (c : ClientId) :
    s.contains c = false ↔ c ∉ s.keys := by
  simp [ClientSet.contains]

theorem ClientSet.mem_insert (s : ClientSet) (c d : ClientId) :
    d ∈ (s.insert c).keys ↔ d = c ∨ d ∈ s.keys := by
  unfold ClientSet.insert
  split
  · rename_i h
    constructor
    · exact Or.inr
    · rintro (rfl | h')
      · exact h
      · exact h'
  · simp [or_comm]

theorem ClientSet.insert_of_mem (s : ClientSet) (c : ClientId) (h : c ∈ s.keys) :
    s.insert c = s := by
  simp [ClientSet.insert, h]

theorem ClientSet.insert_insert (s : ClientSet) (c : ClientId) :
    (s.insert c).insert c = s.insert c :=
  ClientSet.insert_of_mem _ _ ((ClientSet.mem_insert s c c).2 (Or.inl rfl))

theorem ClientSet.len_insert (s : ClientSet) (c : ClientId) :
    (s.insert c).len = s.len + (if s.contains c then 0 else 1) := by
  by_cases h : c ∈ s.keys
  · simp [ClientSet.insert, ClientSet.contains, ClientSet.len, h]
  · simp [ClientSet.insert, ClientSet.contains, ClientSet.len, h]

theorem ClientSet.mem_delete (s : ClientSet) (c d : ClientId) :
    d ∈ (s.delete c).keys ↔ d ≠ c ∧ d ∈ s.keys := by
  simpa [ClientSet.delete] using s.nodup.mem_erase_iff

theorem ClientSet.not_mem_delete (s : ClientSet) (c : ClientId) : c ∉ (s.delete c).keys := by
  simp [ClientSet.mem_delete]

theorem ClientSet.delete_of_not_mem (s : ClientSet) (c : ClientId) (h : c ∉ s.keys) :
    s.delete c = s :=
  ClientSet.ext_keys (by simp [ClientSet.delete, List.erase_of_not_mem h])

/-- After the loop of `handleClientUnregister`, no entry holds the client. -/
theorem removeFromGroups_member (m : GroupMap) (c : ClientId) (name : String) :
    (removeFromGroups m c).member name c = false := by
  cases hm : m name with
  | none => simp [GroupMap.member, removeFromGroups, hm]
  | some members =>
    by_cases hc : members.contains c = true
    · by_cases hl : (members.delete c).len = 0
      · simp [GroupMap.member, removeFromGroups, hm, hc, hl]
      · simp only [GroupMap.member, removeFromGroups, hm, hc, hl, if_true, if_false]
        simpa [ClientSet.contains] using ClientSet.not_mem_delete members c
    · have hc' : members.contains c = false := by simpa using hc
      simp [GroupMap.member, removeFromGroups, hm, hc']

/-- After the loop of `handleClientUnregister`, no entry is empty unless it was before. -/
theorem removeFromGroups_nonempty (m : GroupMap) (c : ClientId) (name : String)
    (members : ClientSet) (h : removeFromGroups m c name = some members) :
    members.len ≠ 0 ∨ m name = some members := by
  cases hm : m name with
  | none => simp [removeFromGroups, hm] at h
  | some old =>
    by_cases hc : old.contains c = true
    · by_cases hl : (old.delete c).len = 0
      · simp [removeFromGroups, hm, hc, hl] at h
      · simp only [removeFromGroups, hm, hc, hl, if_true, if_false] at h
        cases h
        exact Or.inl hl
    · have hc' : old.contains c = false := by simpa using hc
      simp only [removeFromGroups, hm, hc'] at h
      exact Or.inr (by simpa using h)

/-- A map that does not hold the client is left as it is by the loop. -/
theorem removeFromGroups_of_not_member (m : GroupMap) (c : ClientId)
    (h : ∀ name, m.member name c = false) : removeFromGroups m c = m := by
  funext name
  have hn := h name
  unfold GroupMap.member at hn
  unfold removeFromGroups
  cases hm : m name with
  | none => rfl
  | some members =>
    simp only [hm] at hn
    simp [hn]

/-! ## C3, C10: disconnecting a client -/

/-- What `handleClientUnregister` returns for a client in the table whose queue is open. -/
theorem handleClientUnregister_registered (st : State) (c : ClientId)
    (hreg : st.hub.clients.contains c = true) (hopen : (st.send c).closed = false) :
    handleClientUnregister st c = .ok
      { st with
        hub :=
          { clients := st.hub.clients.delete c
            chatRooms := removeFromGroups st.hub.chatRooms c
            postSubscribers := removeFromGroups st.hub.postSubscribers c }
        send := Function.update st.send c { st.send c with closed := true } } := by
  simp [handleClientUnregister, hreg, Chan.close, hopen]

/-- A client in the table whose queue is closed makes `handleClientUnregister` panic. -/
theorem handleClientUnregister_closed (st : State) (c : ClientId)
    (hreg : st.hub.clients.contains c = true) (hclosed : (st.send c).closed = true) :
    handleClientUnregister st c = .error .closeOfClosedChannel := by
  simp [handleClientUnregister, hreg, Chan.close, hclosed]

/-- A client that is not in the table makes `handleClientUnregister` return at once. -/
theorem handleClientUnregister_unregistered (st : State) (c : ClientId)
    (hreg : st.hub.clients.contains c = false) :
    handleClientUnregister st c = .ok st := by
  simp [handleClientUnregister, hreg]

/-- Whenever `handleClientUnregister` returns for a client of the table, the client is gone
from the table and from every set, and its queue is closed. -/
theorem handleClientUnregister_absent (st st' : State) (c : ClientId)
    (hreg : st.hub.clients.contains c = true) (h : handleClientUnregister st c = .ok st') :
    st'.hub.clients.contains c = false
      ∧ (∀ name, st'.hub.chatRooms.member name c = false)
      ∧ (∀ name, st'.hub.postSubscribers.member name c = false)
      ∧ (st'.send c).closed = true := by
  cases hcl : (st.send c).closed with
  | true =>
    rw [handleClientUnregister_closed st c hreg hcl] at h
    cases h
  | false =>
    rw [handleClientUnregister_registered st c hreg hcl] at h
    cases h
    refine ⟨?_, ?_, ?_, ?_⟩
    · simpa [ClientSet.contains] using ClientSet.not_mem_delete st.hub.clients c
    · exact removeFromGroups_member _ _
    · exact removeFromGroups_member _ _
    · simp

/-- C3: for a client that is in the client table whenever it is in a room or follows a
post, as every client is that `ServeWS` registered before its `readPump` could join or
subscribe it: `handleClientUnregister` returns unless the client is in the table with a
closed queue, and whenever it returns the client is absent from the client table, from
every chat room and from every subscriber set. -/
theorem unregister_leaves_no_membership (st : State) (c : ClientId)
    (hinv : ∀ name, (st.hub.chatRooms.member name c = true
        ∨ st.hub.postSubscribers.member name c = true) → st.hub.clients.contains c = true) :
    ((st.hub.clients.contains c = true → (st.send c).closed = false) →
      ∃ st', handleClientUnregister st c = .ok st') ∧
    ∀ st', handleClientUnregister st c = .ok st' →
      st'.hub.clients.contains c = false
      ∧ (∀ name, st'.hub.chatRooms.member name c = false)
      ∧ (∀ name, st'.hub.postSubscribers.member name c = false) := by
  constructor
  · intro h
    cases hreg : st.hub.clients.contains c with
    | false => exact ⟨st, handleClientUnregister_unregistered st c hreg⟩
    | true => exact ⟨_, handleClientUnregister_registered st c hreg (h hreg)⟩
  · intro st' h
    cases hreg : st.hub.clients.contains c with
    | false =>
      rw [handleClientUnregister_unregistered st c hreg] at h
      cases h
      refine ⟨hreg, ?_, ?_⟩
      · intro name
        cases hm : st.hub.chatRooms.member name c with
        | false => rfl
        | true => rw [hinv name (Or.inl hm)] at hreg; cases hreg
      · intro name
        cases hm : st.hub.postSubscribers.member name c with
        | false => rfl
        | true => rw [hinv name (Or.inr hm)] at hreg; cases hreg
    | true =>
      have := handleClientUnregister_absent st st' c hreg h
      exact ⟨this.1, this.2.1, this.2.2.1⟩

/-- C3 at a client that registered, joined `general` and follows `post-1`. -/
theorem unregister_leaves_no_membership_witness :
    (∀ name, ((SubscribeToPost (JoinChatRoom (handleClientRegister sampleState 0) (.client 0)
          "general") (.client 0) "post-1").hub.chatRooms.member name 0 = true
        ∨ (SubscribeToPost (JoinChatRoom (handleClientRegister sampleState 0) (.client 0)
          "general") (.client 0) "post-1").hub.postSubscribers.member name 0 = true) →
      (SubscribeToPost (JoinChatRoom (handleClientRegister sampleState 0) (.client 0)
          "general") (.client 0) "post-1").hub.clients.contains 0 = true)
    ∧ ∃ st', handleClientUnregister
        (SubscribeToPost (JoinChatRoom (handleClientRegister sampleState 0) (.client 0)
          "general") (.client 0) "post-1") 0 = .ok st'
      ∧ st'.hub.clients.contains 0 = false
      ∧ (∀ name, st'.hub.chatRooms.member name 0 = false)
      ∧ (∀ name, st'.hub.postSubscribers.member name 0 = false) :=
  ⟨fun _ _ => by decide,
    ((unregister_leaves_no_membership
        (SubscribeToPost (JoinChatRoom (handleClientRegister sampleState 0) (.client 0)
          "general") (.client 0) "post-1") 0 (fun _ _ => by decide)).1 (fun _ => rfl)).elim
      fun st' h => ⟨st', h,
        (unregister_leaves_no_membership
          (SubscribeToPost (JoinChatRoom (handleClientRegister sampleState 0) (.client 0)
            "general") (.client 0) "post-1") 0 (fun _ _ => by decide)).2 st' h⟩⟩

/-- C10. A second `handleClientUnregister` for the same client, right after a first that
returned, returns the state the first one left: nothing changes and no queue is closed again.
The first call returns unless the client is in the table with a closed queue. -/
theorem unregister_twice_is_noop (st : State) (c : ClientId) :
    (∀ st', handleClientUnregister st c = .ok st' → handleClientUnregister st' c = .ok st') ∧
    ((st.hub.clients.contains c = true → (st.send c).closed = false) →
      ∃ st', handleClientUnregister st c = .ok st') := by
  constructor
  · intro st' h
    cases hreg : st.hub.clients.contains c with
    | false =>
      rw [handleClientUnregister_unregistered st c hreg] at h
      cases h
      exact handleClientUnregister_unregistered st c hreg
    | true =>
      exact handleClientUnregister_unregistered st' c
        (handleClientUnregister_absent st st' c hreg h).1
  · intro h
    cases hreg : st.hub.clients.contains c with
    | false => exact ⟨st, handleClientUnregister_unregistered st c hreg⟩
    | true => exact ⟨_, handleClientUnregister_registered st c hreg (h hreg)⟩

/-- C10 at a client that registered and joined `general`. -/
theorem unregister_twice_is_noop_witness :
    ∃ st', handleClientUnregister
        (JoinChatRoom (handleClientRegister sampleState 0) (.client 0) "general") 0 = .ok st'
      ∧ handleClientUnregister st' 0 = .ok st' :=
  ((unregister_twice_is_noop
      (JoinChatRoom (handleClientRegister sampleState 0) (.client 0) "general") 0).2
      (fun _ => rfl)).elim
    fun st' h => ⟨st', h,
      (unregister_twice_is_noop
        (JoinChatRoom (handleClientRegister sampleState 0) (.client 0) "general") 0).1 st' h⟩

/-! ## C9: joining and subscribing -/

/-- The entry written by `addToGroup`. -/
theorem addToGroup_same (m : GroupMap) (name : String) (c : ClientId) :
    addToGroup m name c name = some (((m name).getD ClientSet.empty).insert c) := by
  cases hm : m name with
  | none => simp [addToGroup, hm]
  | some members => simp [addToGroup, hm]

/-- The entries `addToGroup` does not write. -/
theorem addToGroup_other (m : GroupMap) (name other : String) (c : ClientId)
    (h : other ≠ name) : addToGroup m name c other = m other := by
  cases hm : m name with
  | none => simp [addToGroup, hm, Function.update_noteq h]
  | some members => simp [addToGroup, hm, Function.update_noteq h]

/-- Adding a client twice is adding it once. -/
theorem addToGroup_idem (m : GroupMap) (name : String) (c : ClientId) :
    addToGroup (addToGroup m name c) name c = addToGroup m name c := by
  funext other
  by_cases h : other = name
  · subst h
    rw [addToGroup_same, addToGroup_same]
    simp [ClientSet.insert_insert]
  · rw [addToGroup_other _ _ _ _ h]

/-- The client is a member after `addToGroup`. -/
theorem addToGroup_member (m : GroupMap) (name : String) (c : ClientId) :
    (addToGroup m name c).member name c = true := by
  simp [GroupMap.member, addToGroup_same, ClientSet.contains, ClientSet.mem_insert]

/-- The size of the entry after `addToGroup`. -/
theorem addToGroup_size (m : GroupMap) (name : String) (c : ClientId) :
    (addToGroup m name c).size name = m.size name + (if m.member name c then 0 else 1) := by
  cases hm : m name with
  | none =>
    have h0 : ClientSet.empty.len = 0 := rfl
    have h1 : ClientSet.empty.contains c = false := rfl
    simp [GroupMap.size, GroupMap.member, addToGroup_same, hm, ClientSet.len_insert, h0, h1]
  | some members =>
    simp [GroupMap.size, GroupMap.member, addToGroup_same, hm, ClientSet.len_insert]

/-- C9. `JoinChatRoom(c, r)` leaves `r` present with `c` in it; a second call changes nothing;
the size of `r` grows by one when `c` was not a member and by zero when it was; every other
room, every subscriber set, the client table and every queue are unchanged.  `SubscribeToPost`
does the same on the subscriber map. -/
theorem join_and_subscribe_are_idempotent (st : State) (c : ClientId) (r : String) :
    ((JoinChatRoom st (.client c) r).hub.chatRooms r ≠ none
      ∧ (JoinChatRoom st (.client c) r).hub.chatRooms.member r c = true
      ∧ JoinChatRoom (JoinChatRoom st (.client c) r) (.client c) r = JoinChatRoom st (.client c) r
      ∧ (JoinChatRoom st (.client c) r).hub.chatRooms.size r
          = st.hub.chatRooms.size r + (if st.hub.chatRooms.member r c then 0 else 1)
      ∧ (∀ other, other ≠ r →
          (JoinChatRoom st (.client c) r).hub.chatRooms other = st.hub.chatRooms other)
      ∧ (JoinChatRoom st (.client c) r).hub.postSubscribers = st.hub.postSubscribers
      ∧ (JoinChatRoom st (.client c) r).hub.clients = st.hub.clients
      ∧ (JoinChatRoom st (.client c) r).send = st.send) ∧
    ((SubscribeToPost st (.client c) r).hub.postSubscribers r ≠ none
      ∧ (SubscribeToPost st (.client c) r).hub.postSubscribers.member r c = true
      ∧ SubscribeToPost (SubscribeToPost st (.client c) r) (.client c) r
          = SubscribeToPost st (.client c) r
      ∧ (SubscribeToPost st (.client c) r).hub.postSubscribers.size r
          = st.hub.postSubscribers.size r + (if st.hub.postSubscribers.member r c then 0 else 1)
      ∧ (∀ other, other ≠ r →
          (SubscribeToPost st (.client c) r).hub.postSubscribers other
            = st.hub.postSubscribers other)
      ∧ (SubscribeToPost st (.client c) r).hub.chatRooms = st.hub.chatRooms
      ∧ (SubscribeToPost st (.client c) r).hub.clients = st.hub.clients
      ∧ (SubscribeToPost st (.client c) r).send = st.send) := by
  refine ⟨⟨?_, ?_, ?_, ?_, ?_, rfl, rfl, rfl⟩, ⟨?_, ?_, ?_, ?_, ?_, rfl, rfl, rfl⟩⟩
  · simp [JoinChatRoom, ClientInterface.asClient, addToGroup_same]
  · exact addToGroup_member _ _ _
  · simp [JoinChatRoom, ClientInterface.asClient, addToGroup_idem]
  · exact addToGroup_size _ _ _
  · intro other h
    exact addToGroup_other _ _ _ _ h
  · simp [SubscribeToPost, ClientInterface.asClient, addToGroup_same]
  · exact addToGroup_member _ _ _
  · simp [SubscribeToPost, ClientInterface.asClient, addToGroup_idem]
  · exact addToGroup_size _ _ _
  · intro other h
    exact addToGroup_other _ _ _ _ h

/-! ## C7: the fan-out of a broadcast -/

/-- The send loop of a broadcast over keys whose queues are all open: it ends without a
panic, a key with room in its queue gets the message at the tail, a key whose queue is full
has its queue closed and is deleted from the member set, and nothing else changes. -/
theorem broadcastLoop_open (bytes : Bytes) :
    ∀ (l : List ClientId) (send : ClientId → Chan) (members : ClientSet),
      l.Nodup → (∀ c ∈ l, (send c).closed = false) →
      ∃ send' members', broadcastLoop bytes l (send, members) = .ok (send', members')
        ∧ (∀ c, send' c =
            if c ∈ l then
              (if (send c).full then { send c with closed := true } else (send c).push bytes)
            else send c)
        ∧ (∀ c, c ∈ members'.keys ↔ c ∈ members.keys ∧ ¬ (c ∈ l ∧ (send c).full = true)) := by
  intro l
  induction l with
  | nil =>
    intro send members _ _
    exact ⟨send, members, rfl, by simp, by simp⟩
  | cons a l ih =>
    intro send members hnd hopen
    have ha : a ∉ l := (List.nodup_cons.mp hnd).1
    have hl : l.Nodup := (List.nodup_cons.mp hnd).2
    have hopa : (send a).closed = false := hopen a (List.mem_cons_self a l)
    have hne : ∀ c ∈ l, c ≠ a := fun c hc h => ha (h ▸ hc)
    cases hfull : (send a).full with
    | true =>
      have hopen1 : ∀ c ∈ l,
          (Function.update send a { send a with closed := true } c).closed = false := by
        intro c hc
        rw [Function.update_noteq (hne c hc)]
        exact hopen c (List.mem_cons_of_mem a hc)
      obtain ⟨send', members', heq, hs, hm⟩ :=
        ih (Function.update send a { send a with closed := true }) (members.delete a) hl hopen1
      refine ⟨send', members', ?_, ?_, ?_⟩
      · simp only [broadcastLoop, Chan.trySend, Chan.close, hopa, hfull]
        simpa using heq
      · intro c
        rw [hs c]
        by_cases hca : c = a
        · subst hca
          simp [ha, hfull]
        · simp [hca, Function.update_noteq hca]
      · intro c
        rw [hm c, ClientSet.mem_delete]
        by_cases hca : c = a
        · subst hca
          simp [hfull]
        · simp [hca, Function.update_noteq hca]
    | false =>
      have hopen1 : ∀ c ∈ l,
          (Function.update send a ((send a).push bytes) c).closed = false := by
        intro c hc
        rw [Function.update_noteq (hne c hc)]
        exact hopen c (List.mem_cons_of_mem a hc)
      obtain ⟨send', members', heq, hs, hm⟩ :=
        ih (Function.update send a ((send a).push bytes)) members hl hopen1
      refine ⟨send', members', ?_, ?_, ?_⟩
      · simp only [broadcastLoop, Chan.trySend, hopa, hfull]
        simpa [Chan.push, hopa] using heq
      · intro c
        rw [hs c]
        by_cases hca : c = a
        · subst hca
          simp [ha, hfull]
        · simp [hca, Function.update_noteq hca]
      · intro c
        rw [hm c]
        by_cases hca : c = a
        · subst hca
          simp [hfull, ha]
        · simp [hca, Function.update_noteq hca]

set_option maxRecDepth 100000 in
/-- C7 fails on the code: after client 0 was evicted from `general` it is still in `random`
with a closed queue, so a broadcast to `random` panics at client 0, and client 1, a member
of `random` whose queue is open and not full, does not get the message. -/
theorem broadcast_stops_at_closed_member :
    (run sampleEnv sampleState evictOps).toOption.map
        (fun st =>
          (st.hub.chatRooms "random" == some ⟨[0, 1], by decide⟩,
           (st.send 0).closed, (st.send 1).closed, (st.send 1).full,
           panicOf (BroadcastToChatRoom sampleEnv st "random" hello)))
      = some (true, true, false, false, some .sendOnClosedChannel) := by
  decide

/-- The fan-out away from closed queues.  When no member of the room has a closed queue and
the event serializes to `bytes`, `BroadcastToChatRoom` returns; every member whose queue is not full has `bytes`
appended once at the tail of its queue and stays a member; every member whose queue is full
has its queue closed and leaves the room; the queues of non-members, the other rooms, the
subscriber sets and the client table are unchanged.  The same holds for
`BroadcastToPostSubscribers` over the subscribers of a post. -/
theorem broadcast_reaches_every_open_member (env : Env) (st : State) (name : String)
    (event : Event) (bytes : Bytes) (hj : env.marshal event = .ok bytes) :
    (∀ members, st.hub.chatRooms name = some members →
      (∀ c ∈ members.keys, (st.send c).closed = false) →
      ∃ st', BroadcastToChatRoom env st name event = .ok st'
        ∧ (∀ c ∈ members.keys, (st.send c).full = false →
            st'.send c = (st.send c).push bytes ∧ st'.hub.chatRooms.member name c = true)
        ∧ (∀ c ∈ members.keys, (st.send c).full = true →
            st'.send c = { st.send c with closed := true }
              ∧ st'.hub.chatRooms.member name c = false)
        ∧ (∀ c, c ∉ members.keys → st'.send c = st.send c)
        ∧ (∀ other, other ≠ name → st'.hub.chatRooms other = st.hub.chatRooms other)
        ∧ st'.hub.postSubscribers = st.hub.postSubscribers
        ∧ st'.hub.clients = st.hub.clients) ∧
    (∀ members, st.hub.postSubscribers name = some members →
      (∀ c ∈ members.keys, (st.send c).closed = false) →
      ∃ st', BroadcastToPostSubscribers env st name event = .ok st'
        ∧ (∀ c ∈ members.keys, (st.send c).full = false →
            st'.send c = (st.send c).push bytes ∧ st'.hub.postSubscribers.member name c = true)
        ∧ (∀ c ∈ members.keys, (st.send c).full = true →
            st'.send c = { st.send c with closed := true }
              ∧ st'.hub.postSubscribers.member name c = false)
        ∧ (∀ c, c ∉ members.keys → st'.send c = st.send c)
        ∧ (∀ other, other ≠ name → st'.hub.postSubscribers other = st.hub.postSubscribers other)
        ∧ st'.hub.chatRooms = st.hub.chatRooms
        ∧ st'.hub.clients = st.hub.clients) := by
  constructor
  · intro members hm hopen
    obtain ⟨send', members', heq, hs, hmem⟩ :=
      broadcastLoop_open bytes members.keys st.send members members.nodup hopen
    refine ⟨{ st with
        hub := { st.hub with
          chatRooms := Function.update st.hub.chatRooms name (some members') }
        send := send' }, by simp only [BroadcastToChatRoom, hm, hj, heq], ?_, ?_, ?_, ?_, rfl, rfl⟩
    · intro c hc hfull
      refine ⟨by simp [hs c, hc, hfull], ?_⟩
      simp [GroupMap.member, ClientSet.contains, hmem c, hc, hfull]
    · intro c hc hfull
      refine ⟨by simp [hs c, hc, hfull], ?_⟩
      simp [GroupMap.member, ClientSet.contains, hmem c, hc, hfull]
    · intro c hc
      simp [hs c, hc]
    · intro other hne
      simp [Function.update_noteq hne]
  · intro members hm hopen
    obtain ⟨send', members', heq, hs, hmem⟩ :=
      broadcastLoop_open bytes members.keys st.send members members.nodup hopen
    refine ⟨{ st with
        hub := { st.hub with
          postSubscribers := Function.update st.hub.postSubscribers name (some members') }
        send := send' }, by simp only [BroadcastToPostSubscribers, hm, hj, heq],
      ?_, ?_, ?_, ?_, rfl, rfl⟩
    · intro c hc hfull
      refine ⟨by simp [hs c, hc, hfull], ?_⟩
      simp [GroupMap.member, ClientSet.contains, hmem c, hc, hfull]
    · intro c hc hfull
      refine ⟨by simp [hs c, hc, hfull], ?_⟩
      simp [GroupMap.member, ClientSet.contains, hmem c, hc, hfull]
    · intro c hc
      simp [hs c, hc]
    · intro other hne
      simp [Function.update_noteq hne]

/-- The fan-out at a broadcast of the chat scenario to two members with empty queues. -/
theorem broadcast_reaches_every_open_member_witness :
    ∃ st', BroadcastToChatRoom sampleEnv twoMembers "general" hello = .ok st'
      ∧ st'.send 0 = (twoMembers.send 0).push frameChatHi
      ∧ st'.send 1 = (twoMembers.send 1).push frameChatHi :=
  ((broadcast_reaches_every_open_member sampleEnv twoMembers "general" hello frameChatHi rfl).1
      ⟨[0, 1], by decide⟩ rfl (by decide)).elim
    fun st' h => ⟨st', h.1, (h.2.1 0 (by decide) rfl).1, (h.2.1 1 (by decide) rfl).1⟩

/-! ## C4, C5, C6, C8: what the eviction of a slow member leaves behind

The `default` branch of the two broadcast loops closes the member's queue and deletes the
member from the set that is being broadcast to, and does nothing else: the member stays in
the client table and in every other set, and the set stays in its map when it becomes empty.
-/

set_option maxRecDepth 100000 in
/-- C4 fails on the code: a client joins `general` and stops reading, the 257th broadcast
finds its queue full and closes it, and the `handleClientUnregister` that follows the end of
its connection closes the same queue again, which panics. -/
theorem eviction_then_unregister_closes_twice :
    panicOf (run sampleEnv sampleState evictLastMemberOps) = none
      ∧ (run sampleEnv sampleState evictLastMemberOps).toOption.map
          (fun st => (st.hub.clients.contains 0, (st.send 0).closed)) = some (true, true)
      ∧ panicOf (run sampleEnv sampleState doubleCloseOps) = some .closeOfClosedChannel := by
  decide

set_option maxRecDepth 100000 in
/-- C5 fails on the code: the member whose queue was full when `general` was broadcast to
has its queue closed and is out of `general`, but it is still in the client table, in the
room `random` and among the subscribers of `post-1`. -/
theorem eviction_is_local_to_the_group :
    (run sampleEnv sampleState evictOps).toOption.map
        (fun st =>
          ((st.send 0).closed, st.hub.chatRooms.member "general" 0,
           st.hub.clients.contains 0, st.hub.chatRooms.member "random" 0,
           st.hub.postSubscribers.member "post-1" 0))
      = some (true, false, true, true, true) := by
  decide

set_option maxRecDepth 100000 in
/-- C6 fails on the code: after the eviction from `general`, client 0 has a closed queue and
is a member of `random` and a subscriber of `post-1`; the next broadcast to `random` and the
next broadcast to `post-1` both send on the closed queue and panic. -/
theorem closed_queue_stays_in_other_groups :
    (run sampleEnv sampleState evictOps).toOption.map
        (fun st =>
          ((st.send 0).closed, st.hub.chatRooms.member "random" 0,
           st.hub.postSubscribers.member "post-1" 0))
      = some (true, true, true)
    ∧ panicOf (run sampleEnv sampleState (evictOps ++ [.broadcastRoom "random" hello]))
      = some .sendOnClosedChannel
    ∧ panicOf (run sampleEnv sampleState (evictOps ++ [.broadcastPost "post-1" hello]))
      = some .sendOnClosedChannel := by
  decide

set_option maxRecDepth 100000 in
/-- C8 fails on the code: when the broadcast evicts the last member of `general`, the room
stays in the room map with an empty member set. -/
theorem eviction_leaves_empty_room :
    (run sampleEnv sampleState evictLastMemberOps).toOption.map
        (fun st => (st.hub.chatRooms "general", st.hub.chatRooms.size "general"))
      = some (some ClientSet.empty, 0) := by
  decide

/-! ## C11, C12: broadcasts to nobody, direct sends -/

/-- C11. A broadcast to a room name that has no entry in the room map returns the state it
was given: the room map, the subscriber map, the client table and every queue are unchanged.
The same holds for a broadcast to a post id that has no entry in the subscriber map, and in
both cases also when the entry is there with an empty member set. -/
theorem broadcast_to_nobody_is_noop (env : Env) (st : State) (name : String) (event : Event) :
    (st.hub.chatRooms name = none → BroadcastToChatRoom env st name event = .ok st) ∧
    (st.hub.postSubscribers name = none →
      BroadcastToPostSubscribers env st name event = .ok st) ∧
    (st.hub.chatRooms.size name = 0 → BroadcastToChatRoom env st name event = .ok st) ∧
    (st.hub.postSubscribers.size name = 0 →
      BroadcastToPostSubscribers env st name event = .ok st) := by
  refine ⟨?_, ?_, ?_, ?_⟩
  · intro h
    simp [BroadcastToChatRoom, h]
  · intro h
    simp [BroadcastToPostSubscribers, h]
  · intro h
    cases hm : st.hub.chatRooms name with
    | none => simp [BroadcastToChatRoom, hm]
    | some members =>
      have hk : members.keys = [] := by
        simpa [GroupMap.size, hm, ClientSet.len] using h
      cases hj : env.marshal event with
      | error e => simp [BroadcastToChatRoom, hm, hj]
      | ok bytes =>
        simp only [BroadcastToChatRoom, hm, hj, hk, broadcastLoop]
        rw [← hm, Function.update_eq_self]
  · intro h
    cases hm : st.hub.postSubscribers name with
    | none => simp [BroadcastToPostSubscribers, hm]
    | some members =>
      have hk : members.keys = [] := by
        simpa [GroupMap.size, hm, ClientSet.len] using h
      cases hj : env.marshal event with
      | error e => simp [BroadcastToPostSubscribers, hm, hj]
      | ok bytes =>
        simp only [BroadcastToPostSubscribers, hm, hj, hk, broadcastLoop]
        rw [← hm, Function.update_eq_self]

/-- C11 at a new hub: a chat broadcast to `general` and a comment broadcast to `post-1`. -/
theorem broadcast_to_nobody_is_noop_witness :
    BroadcastToChatRoom sampleEnv sampleState "general" hello = .ok sampleState ∧
    BroadcastToPostSubscribers sampleEnv sampleState "post-1" (.postComment commentNice)
      = .ok sampleState :=
  ⟨(broadcast_to_nobody_is_noop sampleEnv sampleState "general" hello).1 rfl,
   (broadcast_to_nobody_is_noop sampleEnv sampleState "post-1" (.postComment commentNice)).2.1
     rfl⟩

/-- C12. For a hub connection whose queue is open and has the capacity 256 that
`HandleWebSocket` gives it, and an event that serializes to `bytes`: with fewer than 256
messages queued, `SendToClient` returns no error and appends `bytes` at the tail of the queue;
with 256 messages queued it returns the error `client send buffer is full` and the state it
was given, so the queue is not closed and the queue contents, the client table and every
membership are unchanged. -/
theorem send_to_client_queues_or_reports_full (env : Env) (st : State) (c : ClientId)
    (event : Event) (bytes : Bytes) (hj : env.marshal event = .ok bytes)
    (hopen : (st.send c).closed = false) (hcap : (st.send c).cap = sendBufferSize) :
    ((st.send c).buf.length < 256 →
      SendToClient env st (.client c) event
        = .ok ({ st with send := Function.update st.send c ((st.send c).push bytes) }, none)) ∧
    (256 ≤ (st.send c).buf.length →
      SendToClient env st (.client c) event = .ok (st, some "client send buffer is full")) := by
  constructor
  · intro hlen
    have hfull : (st.send c).full = false := by
      simp [Chan.full, hcap, sendBufferSize, hlen]
    simp [SendToClient, ClientInterface.asClient, hj, Chan.trySend, hopen, hfull, Chan.push]
  · intro hlen
    have hfull : (st.send c).full = true := by
      simp [Chan.full, hcap, sendBufferSize, hlen]
    simp [SendToClient, ClientInterface.asClient, hj, Chan.trySend, hopen, hfull]

set_option maxRecDepth 100000 in
/-- C12 at a connection with an empty queue and at one with 256 queued messages. -/
theorem send_to_client_queues_or_reports_full_witness :
    SendToClient sampleEnv sampleState (.client 0) hello
      = .ok ({ sampleState with
          send := Function.update sampleState.send 0 ((sampleState.send 0).push frameChatHi) },
        none) ∧
    SendToClient sampleEnv fullQueueState (.client 0) hello
      = .ok (fullQueueState, some "client send buffer is full") :=
  ⟨(send_to_client_queues_or_reports_full sampleEnv sampleState 0 hello frameChatHi rfl rfl rfl).1
      (by decide),
   (send_to_client_queues_or_reports_full sampleEnv fullQueueState 0 hello frameChatHi
      rfl rfl rfl).2 (by decide)⟩

/-! ## C13, C14: the event router -/

/-- C13. `routeEvent` is the dispatch on the decoded discriminator: when decoding fails it
returns an error that begins with `invalid event format` and the world is unchanged; when the
discriminator is exactly `JOIN_ROOM`, `CHAT_MESSAGE` or `POST_COMMENT` its outcome is the
outcome of the room, chat or comment handler on the same client and frame; for every other
discriminator it returns `unknown event type: ` followed by the discriminator and the world
is unchanged. -/
theorem routeEvent_dispatches_on_discriminator (env : Env) (w : World)
    (client : ClientInterface) (frame : Bytes) :
    (∀ err, unmarshalBaseEvent env frame = .error err →
      routeEvent env w client frame
        = (w, .returned (some ("invalid event format" ++ (": " ++ err))))) ∧
    (∀ type_, unmarshalBaseEvent env frame = .ok type_ →
      (type_ = "JOIN_ROOM" → routeEvent env w client frame = HandleJoinRoom env w client frame) ∧
      (type_ = "CHAT_MESSAGE" →
        routeEvent env w client frame = HandleChatMessage env w client frame) ∧
      (type_ = "POST_COMMENT" →
        routeEvent env w client frame = HandlePostComment env w client frame) ∧
      (type_ ≠ "JOIN_ROOM" → type_ ≠ "CHAT_MESSAGE" → type_ ≠ "POST_COMMENT" →
        routeEvent env w client frame
          = (w, .returned (some ("unknown event type: " ++ type_))))) := by
  constructor
  · intro err h
    simp only [routeEvent, h, ← String.append_assoc]
    rfl
  · intro type_ h
    refine ⟨?_, ?_, ?_, ?_⟩
    · intro ht
      subst ht
      simp [routeEvent, h, EventJoinRoom]
    · intro ht
      subst ht
      simp [routeEvent, h, EventJoinRoom, EventChatMessage]
    · intro ht
      subst ht
      simp [routeEvent, h, EventJoinRoom, EventChatMessage, EventPostComment]
    · intro h1 h2 h3
      simp [routeEvent, h, EventJoinRoom, EventChatMessage, EventPostComment, h1, h2, h3]

/-- C13 at a frame that is not JSON, at the chat frame of the specification, and at the
same frame with its discriminator in lower case. -/
theorem routeEvent_dispatches_on_discriminator_witness :
    routeEvent sampleEnv sampleWorld (.client 0) frameNotJson
      = (sampleWorld, .returned (some ("invalid event format"
          ++ (": " ++ "invalid character \x27h\x27 looking for beginning of value")))) ∧
    routeEvent sampleEnv sampleWorld (.client 0) frameChatHi
      = HandleChatMessage sampleEnv sampleWorld (.client 0) frameChatHi ∧
    routeEvent sampleEnv sampleWorld (.client 0) frameLowerType
      = (sampleWorld, .returned (some ("unknown event type: " ++ "chat_message"))) :=
  ⟨(routeEvent_dispatches_on_discriminator sampleEnv sampleWorld (.client 0) frameNotJson).1
      _ rfl,
   ((routeEvent_dispatches_on_discriminator sampleEnv sampleWorld (.client 0) frameChatHi).2
      "CHAT_MESSAGE" rfl).2.1 rfl,
   ((routeEvent_dispatches_on_discriminator sampleEnv sampleWorld (.client 0) frameLowerType).2
      "chat_message" rfl).2.2.2 (by decide) (by decide) (by decide)⟩

/-- Members none of which names the field leave the decoded `Type` as it was. -/
theorem decodeTypeMembers_no_key (members : List (String × Json))
    (acc : String × Option String) (h : ∀ m ∈ members, keyIsType m.1 = false) :
    decodeTypeMembers members acc = acc := by
  induction members generalizing acc with
  | nil => rfl
  | cons m rest ih =>
    obtain ⟨key, value⟩ := m
    obtain ⟨type_, err⟩ := acc
    have hk : keyIsType key = false := h (key, value) (List.mem_cons_self _ _)
    simp only [decodeTypeMembers, hk]
    exact ih _ fun m hm => h m (List.mem_cons_of_mem _ hm)

/-- The claim C14 as it is stated fails: the chat frame of the specification without its
`type` member is a JSON object, and `routeEvent` answers it with `unknown event type: `, an
error that does not begin with `invalid event format`. -/
theorem missing_type_is_unknown_event_type :
    sampleEnv.parse frameNoType
      = .ok (jsonStrings [("room", "general"), ("user", "alice"), ("message", "hi")])
    ∧ (routeEvent sampleEnv sampleWorld (.client 0) frameNoType).2
      = .returned (some "unknown event type: ")
    ∧ "invalid event format".data.isPrefixOf "unknown event type: ".data = false :=
  ⟨rfl, by decide, by decide⟩

/-- C14, amended. For every frame that is a JSON object none of whose members is named
`type` (in any letter case), `routeEvent` invokes no handler and fails with the error
`unknown event type: ` carrying an empty discriminator. -/
theorem routeEvent_without_type_member (env : Env) (w : World) (client : ClientInterface)
    (frame : Bytes) (members : List (String × Json))
    (hp : env.parse frame = .ok (.object members))
    (hk : ∀ m ∈ members, keyIsType m.1 = false) :
    unmarshalBaseEvent env frame = .ok ""
    ∧ routeEvent env w client frame = (w, .returned (some ("unknown event type: " ++ ""))) := by
  have hu : unmarshalBaseEvent env frame = .ok "" := by
    simp [unmarshalBaseEvent, hp, decodeTypeMembers_no_key members ("", none) hk]
  refine ⟨hu, ?_⟩
  simp [routeEvent, hu, EventJoinRoom, EventChatMessage, EventPostComment]

/-- C14, amended, at the chat frame of the specification without its `type` member. -/
theorem routeEvent_without_type_member_witness :
    unmarshalBaseEvent sampleEnv frameNoType = .ok ""
    ∧ routeEvent sampleEnv sampleWorld (.client 0) frameNoType
      = (sampleWorld, .returned (some ("unknown event type: " ++ ""))) :=
  routeEvent_without_type_member sampleEnv sampleWorld (.client 0) frameNoType
    [("room", Json.string "general"), ("user", Json.string "alice"),
      ("message", Json.string "hi")] rfl (by decide)

/-! ## Lengths of strings -/

theorem len_eq_go (s : String) : len s = String.utf8ByteSize.go s.data := by
  cases s; rfl

theorem length_le_go (l : List Char) : l.length ≤ String.utf8ByteSize.go l := by
  induction l with
  | nil => simp [String.utf8ByteSize.go]
  | cons c cs ih =>
    have := Char.utf8Size_pos c
    simp only [String.utf8ByteSize.go, List.length_cons]
    omega

/-- A string has at least as many bytes as characters. -/
theorem length_le_len (s : String) : s.length ≤ len s := by
  rw [len_eq_go]
  exact length_le_go s.data

theorem utf8Size_of_ascii (c : Char) (h : c.toNat < 128) : c.utf8Size = 1 := by
  have h1 : c.val ≤ 0x7F := by
    show c.val.val.val ≤ 127
    have : c.val.val.val = c.toNat := rfl
    omega
  simp [Char.utf8Size, h1]

theorem go_of_ascii (l : List Char) (h : ∀ c ∈ l, c.toNat < 128) :
    String.utf8ByteSize.go l = l.length := by
  induction l with
  | nil => simp [String.utf8ByteSize.go]
  | cons c cs ih =>
    have h1 := utf8Size_of_ascii c (h c (List.mem_cons_self _ _))
    have h2 := ih (fun d hd => h d (List.mem_cons_of_mem _ hd))
    simp only [String.utf8ByteSize.go, List.length_cons, h1, h2]

/-- An ASCII string has as many bytes as characters. -/
theorem len_of_ascii (s : String) (h : ∀ c ∈ s.data, c.toNat < 128) : len s = s.length := by
  rw [len_eq_go]
  exact go_of_ascii s.data h

theorem ne_empty_iff_data (s : String) : s ≠ "" ↔ s.data ≠ [] := by
  constructor
  · intro h hd
    apply h
    obtain ⟨l⟩ := s
    simp only at hd
    subst hd
    rfl
  · intro h hs
    apply h
    subst hs
    rfl

theorem ne_empty_iff_length (s : String) : s ≠ "" ↔ 1 ≤ s.length := by
  rw [ne_empty_iff_data]
  show s.data ≠ [] ↔ 1 ≤ s.data.length
  cases s.data with
  | nil => simp
  | cons c cs => simp

/-- The characters of the class `[a-zA-Z0-9_-]` are ASCII. -/
theorem isNameChar_ascii (c : Char) (h : isNameChar c = true) : c.toNat < 128 := by
  simp only [isNameChar, Bool.or_eq_true, Bool.and_eq_true, decide_eq_true_eq,
    beq_iff_eq] at h
  rcases h with (((⟨_, h⟩ | ⟨_, h⟩) | ⟨_, h⟩) | h) | h
  · have h' : c.toNat ≤ 'z'.toNat := h
    have : 'z'.toNat = 122 := rfl
    omega
  · have h' : c.toNat ≤ 'Z'.toNat := h
    have : 'Z'.toNat = 90 := rfl
    omega
  · have h' : c.toNat ≤ '9'.toNat := h
    have : '9'.toNat = 57 := rfl
    omega
  · subst h; decide
  · subst h; decide

/-- A string of characters of the class has as many bytes as characters. -/
theorem len_of_name (s : String) (h : ∀ c ∈ s.data, isNameChar c = true) : len s = s.length :=
  len_of_ascii s fun c hc => isNameChar_ascii c (h c hc)

theorem matchName_iff (s : String) :
    matchName s = true ↔ s ≠ "" ∧ ∀ c ∈ s.data, isNameChar c = true := by
  rw [ne_empty_iff_data]
  simp [matchName]

/-! ## C15 to C19: the validators -/

/-- When `ValidateChatMessage` returns no error, in the byte lengths it tests. -/
theorem ValidateChatMessage_none_iff (event : ChatMessageEvent) :
    ValidateChatMessage event = none ↔
      event.Room ≠ "" ∧ len event.Room ≤ 50 ∧ event.Message ≠ "" ∧ len event.Message ≤ 1000 := by
  unfold ValidateChatMessage
  split_ifs <;> simp_all

/-- When `ValidatePostComment` returns no error, in the byte lengths it tests. -/
theorem ValidatePostComment_none_iff (event : PostCommentEvent) :
    ValidatePostComment event = none ↔
      event.PostID ≠ "" ∧ len event.PostID ≤ 100 ∧ matchName event.PostID = true
        ∧ event.Comment ≠ "" ∧ len event.Comment ≤ 2000 := by
  unfold ValidatePostComment
  split_ifs <;> simp_all

/-- When `ValidateJoinRoom` returns no error, in the byte lengths it tests. -/
theorem ValidateJoinRoom_none_iff (env : Env) (event : JoinRoomEvent) :
    ValidateJoinRoom env event = none ↔
      event.Room ≠ "" ∧ 2 ≤ len (env.trimSpace (env.toLower event.Room))
        ∧ len (env.trimSpace (env.toLower event.Room)) ≤ 30
        ∧ matchName (env.trimSpace (env.toLower event.Room)) = true
        ∧ env.trimSpace (env.toLower event.Room) ∉ reservedRooms := by
  unfold ValidateJoinRoom
  by_cases h0 : event.Room = ""
  · simp [h0]
  · by_cases h1 : len (env.trimSpace (env.toLower event.Room)) < 2
    · have : ¬ 2 ≤ len (env.trimSpace (env.toLower event.Room)) := by omega
      simp [h0, h1, this]
    · by_cases h2 : len (env.trimSpace (env.toLower event.Room)) > 30
      · have : ¬ len (env.trimSpace (env.toLower event.Room)) ≤ 30 := by omega
        simp [h0, h1, h2, this]
      · have h1' : 2 ≤ len (env.trimSpace (env.toLower event.Room)) := by omega
        have h2' : len (env.trimSpace (env.toLower event.Room)) ≤ 30 := by omega
        by_cases h3 : matchName (env.trimSpace (env.toLower event.Room)) = true
        · by_cases h4 : env.trimSpace (env.toLower event.Room) ∈ reservedRooms
          · simp [h0, h1, h2, h3, h4]
          · simp [h0, h1, h2, h3, h4, h1', h2']
        · simp [h0, h1, h2, h3]

theorem accented_length (n : Nat) : (accented n).length = n := by
  simp [accented, String.length]

theorem len_accented (n : Nat) : len (accented n) = 2 * n := by
  rw [len_eq_go]
  show String.utf8ByteSize.go (List.replicate n 'é') = 2 * n
  induction n with
  | zero => rfl
  | succ k ih =>
    have h2 : 'é'.utf8Size = 2 := by decide
    simp only [List.replicate_succ, String.utf8ByteSize.go, ih, h2]
    omega

theorem accented_ne_empty (n : Nat) (h : 0 < n) : accented n ≠ "" := by
  rw [ne_empty_iff_length, accented_length]
  omega

/-- C15 fails on the code: a comment of 1001 letters `é` on the post `post-1` has between 1
and 2000 characters, yet `ValidatePostComment` rejects it as too long, because it measures the
2002 bytes of the comment. -/
theorem comment_limit_counts_bytes :
    matchName commentAccented.PostID = true
      ∧ commentAccented.Comment.length = 1001
      ∧ len commentAccented.Comment = 2002
      ∧ ValidatePostComment commentAccented = some "comment too long (max 2000 characters)" := by
  have hne : accented 1001 ≠ "" := accented_ne_empty 1001 (by omega)
  have hlen : len (accented 1001) = 2002 := len_accented 1001
  refine ⟨by decide, accented_length 1001, hlen, ?_⟩
  have hp : commentAccented.PostID ≠ "" := by decide
  simp [ValidatePostComment, hp, show commentAccented.Comment = accented 1001 from rfl, hne, hlen]

/-- The rest of C15 holds: for a comment with as many bytes as characters (an ASCII comment),
`ValidatePostComment` returns no error exactly when the post id has 1 to 100 characters, all
of the class `[A-Za-z0-9_-]`, and the comment has 1 to 2000 characters; a post id that holds a
character outside the class, such as a space, is always rejected. -/
theorem ValidatePostComment_of_byte_comment (event : PostCommentEvent) :
    (len event.Comment = event.Comment.length →
      (ValidatePostComment event = none ↔
        1 ≤ event.PostID.length ∧ event.PostID.length ≤ 100
          ∧ (∀ c ∈ event.PostID.data, isNameChar c = true)
          ∧ 1 ≤ event.Comment.length ∧ event.Comment.length ≤ 2000)) ∧
    ((∃ c ∈ event.PostID.data, isNameChar c = false) → ValidatePostComment event ≠ none) := by
  constructor
  · intro hc
    rw [ValidatePostComment_none_iff, matchName_iff, hc, ne_empty_iff_length,
      ne_empty_iff_length]
    constructor
    · rintro ⟨h1, h2, ⟨_, h3⟩, h4, h5⟩
      rw [len_of_name _ h3] at h2
      exact ⟨h1, h2, h3, h4, h5⟩
    · rintro ⟨h1, h2, h3, h4, h5⟩
      rw [← len_of_name _ h3] at h2
      exact ⟨h1, h2, ⟨h1, h3⟩, h4, h5⟩
  · rintro ⟨c, hc, hn⟩ h
    rw [ValidatePostComment_none_iff, matchName_iff] at h
    have := h.2.2.1.2 c hc
    simp [hn] at this

/-- The claim C16 as it is stated fails: `ValidateChatMessage` accepts a room that holds a
space and a slash. -/
theorem chat_validator_accepts_any_room_characters :
    chatOddRoom.Room = "my room/1"
      ∧ chatOddRoom.Room.data.all isNameChar = false
      ∧ ValidateChatMessage chatOddRoom = none := by
  decide

/-- C16, amended. `ValidateChatMessage` does not look at which characters the room holds:
for a chat event whose room and message are ASCII text, whatever the characters of the
room, it returns no error exactly when the room has 1 to 50 characters and the message 1 to
1000 characters. -/
theorem chat_validator_ignores_room_characters (event : ChatMessageEvent)
    (hroom : ∀ c ∈ event.Room.data, c.toNat < 128)
    (hmsg : ∀ c ∈ event.Message.data, c.toNat < 128) :
    ValidateChatMessage event = none ↔
      1 ≤ event.Room.length ∧ event.Room.length ≤ 50
        ∧ 1 ≤ event.Message.length ∧ event.Message.length ≤ 1000 := by
  rw [ValidateChatMessage_none_iff, len_of_ascii _ hroom, len_of_ascii _ hmsg,
    ne_empty_iff_length, ne_empty_iff_length]

/-- The amended C16 at a room that holds a space and a slash. -/
theorem chat_validator_ignores_room_characters_witness :
    chatOddRoom.Room.data.all isNameChar = false
    ∧ (ValidateChatMessage chatOddRoom = none ↔
      1 ≤ chatOddRoom.Room.length ∧ chatOddRoom.Room.length ≤ 50
        ∧ 1 ≤ chatOddRoom.Message.length ∧ chatOddRoom.Message.length ≤ 1000) :=
  ⟨by decide, chat_validator_ignores_room_characters chatOddRoom (by decide) (by decide)⟩

/-- C17. For a chat event whose room has only characters of `[A-Za-z0-9_-]` and whose message
is ASCII, `ValidateChatMessage` returns no error exactly when the room has 1 to 50 characters
and the message 1 to 1000 characters; so a room of 51 characters or a message of 1001
characters is rejected, and a room of 50 with a message of 1000 is accepted. -/
theorem chat_validator_bounds_on_ascii (event : ChatMessageEvent)
    (hroom : ∀ c ∈ event.Room.data, isNameChar c = true)
    (hmsg : ∀ c ∈ event.Message.data, c.toNat < 128) :
    (ValidateChatMessage event = none ↔
      1 ≤ event.Room.length ∧ event.Room.length ≤ 50
        ∧ 1 ≤ event.Message.length ∧ event.Message.length ≤ 1000) ∧
    (event.Room.length = 51 → ValidateChatMessage event ≠ none) ∧
    (event.Message.length = 1001 → ValidateChatMessage event ≠ none) ∧
    (event.Room.length = 50 → event.Message.length = 1000 → ValidateChatMessage event = none) := by
  have hiff : ValidateChatMessage event = none ↔
      1 ≤ event.Room.length ∧ event.Room.length ≤ 50
        ∧ 1 ≤ event.Message.length ∧ event.Message.length ≤ 1000 := by
    rw [ValidateChatMessage_none_iff, len_of_name _ hroom, len_of_ascii _ hmsg,
      ne_empty_iff_length, ne_empty_iff_length]
  refine ⟨hiff, ?_, ?_, ?_⟩
  · intro h hv
    have := hiff.mp hv
    omega
  · intro h hv
    have := hiff.mp hv
    omega
  · intro h1 h2
    exact hiff.mpr (by omega)

/-- C17 at the chat scenario of the specification and at a room of 50 letters with a message
of 1000 letters. -/
theorem chat_validator_bounds_on_ascii_witness :
    ValidateChatMessage chatHi = none ∧ ValidateChatMessage chatAtLimits = none :=
  ⟨(chat_validator_bounds_on_ascii chatHi (by decide) (by decide)).1.mpr (by decide),
   (chat_validator_bounds_on_ascii chatAtLimits
      (fun c hc => by
        rw [List.eq_of_mem_replicate (show c ∈ List.replicate 50 'a' from hc)]
        decide)
      (fun c hc => by
        rw [List.eq_of_mem_replicate (show c ∈ List.replicate 1000 'x' from hc)]
        decide)).2.2.2
     (List.length_replicate 50 'a') (List.length_replicate 1000 'x')⟩

/-- C18 fails on the code: a message of 501 letters `é` in the room `general` has at most
1000 characters, yet `ValidateChatMessage` rejects it as too long, because it measures the
1002 bytes of the message. -/
theorem chat_limit_counts_bytes :
    ValidateChatMessage { chatAccented with Message := "hi" } = none
      ∧ chatAccented.Message.length = 501
      ∧ len chatAccented.Message = 1002
      ∧ ValidateChatMessage chatAccented = some "message too long (max 1000 characters)" := by
  have hne : accented 501 ≠ "" := accented_ne_empty 501 (by omega)
  have hlen : len (accented 501) = 1002 := len_accented 501
  refine ⟨by decide, accented_length 501, hlen, ?_⟩
  have hr : chatAccented.Room ≠ "" := by decide
  simp [ValidateChatMessage, hr, show chatAccented.Message = accented 501 from rfl, hne, hlen]

/-- The class `[a-z0-9_-]` is the class `[a-zA-Z0-9_-]` without the capital letters. -/
theorem isLowerNameChar_iff (c : Char) :
    isLowerNameChar c = true ↔ isNameChar c = true ∧ ¬ ('A' ≤ c ∧ c ≤ 'Z') := by
  simp only [isLowerNameChar, isNameChar, Bool.or_eq_true, Bool.and_eq_true,
    decide_eq_true_eq, beq_iff_eq]
  constructor
  · rintro (((⟨h1, h2⟩ | ⟨h1, h2⟩) | h) | h)
    · refine ⟨Or.inl (Or.inl (Or.inl (Or.inl ⟨h1, h2⟩))), ?_⟩
      rintro ⟨_, h3⟩
      have a1 : 'a'.toNat ≤ c.toNat := h1
      have a2 : c.toNat ≤ 'Z'.toNat := h3
      have e1 : 'a'.toNat = 97 := rfl
      have e2 : 'Z'.toNat = 90 := rfl
      omega
    · refine ⟨Or.inl (Or.inl (Or.inr ⟨h1, h2⟩)), ?_⟩
      rintro ⟨h3, _⟩
      have a1 : 'A'.toNat ≤ c.toNat := h3
      have a2 : c.toNat ≤ '9'.toNat := h2
      have e1 : 'A'.toNat = 65 := rfl
      have e2 : '9'.toNat = 57 := rfl
      omega
    · subst h
      exact ⟨Or.inl (Or.inr rfl), by decide⟩
    · subst h
      exact ⟨Or.inr rfl, by decide⟩
  · rintro ⟨((((⟨h1, h2⟩ | ⟨h1, h2⟩) | ⟨h1, h2⟩) | h) | h), hcap⟩
    · exact Or.inl (Or.inl (Or.inl ⟨h1, h2⟩))
    · exact absurd ⟨h1, h2⟩ hcap
    · exact Or.inl (Or.inl (Or.inr ⟨h1, h2⟩))
    · exact Or.inl (Or.inr h)
    · exact Or.inr h

/-- C19. Let `n` be the room after `strings.ToLower` and `strings.TrimSpace`; lowercasing
leaves no capital letter in `n`.  `ValidateJoinRoom` returns no error exactly when the room is
not empty, `n` has 2 to 30 characters, all of the class `[a-z0-9_-]`, and `n` is none of
`admin`, `system`, `private`; so a room whose lowercased name is reserved is rejected in any
letter case. -/
theorem join_validator_accepts_iff (env : Env) (event : JoinRoomEvent)
    (hlow : ∀ c ∈ (env.trimSpace (env.toLower event.Room)).data, ¬ ('A' ≤ c ∧ c ≤ 'Z')) :
    (ValidateJoinRoom env event = none ↔
      event.Room ≠ ""
        ∧ 2 ≤ (env.trimSpace (env.toLower event.Room)).length
        ∧ (env.trimSpace (env.toLower event.Room)).length ≤ 30
        ∧ (∀ c ∈ (env.trimSpace (env.toLower event.Room)).data, isLowerNameChar c = true)
        ∧ env.trimSpace (env.toLower event.Room) ∉ ["admin", "system", "private"]) ∧
    (env.trimSpace (env.toLower event.Room) ∈ ["admin", "system", "private"] →
      ValidateJoinRoom env event ≠ none) := by
  constructor
  · rw [ValidateJoinRoom_none_iff, matchName_iff]
    constructor
    · rintro ⟨h0, h1, h2, ⟨_, h3⟩, h4⟩
      rw [len_of_name _ h3] at h1 h2
      exact ⟨h0, h1, h2, fun c hc => (isLowerNameChar_iff c).2 ⟨h3 c hc, hlow c hc⟩, h4⟩
    · rintro ⟨h0, h1, h2, h3, h4⟩
      have h3' : ∀ c ∈ (env.trimSpace (env.toLower event.Room)).data, isNameChar c = true :=
        fun c hc => ((isLowerNameChar_iff c).1 (h3 c hc)).1
      rw [len_of_name _ h3']
      exact ⟨h0, h1, h2, ⟨(ne_empty_iff_length _).2 (by omega), h3'⟩, h4⟩
  · intro hres hv
    rw [ValidateJoinRoom_none_iff] at hv
    exact hv.2.2.2.2 hres

/-- C19 at the rooms `Admin` and `SYSTEM`, rejected, and `General`, accepted. -/
theorem join_validator_accepts_iff_witness :
    ValidateJoinRoom sampleEnv { Type_ := "JOIN_ROOM", Room := "Admin", User := "alice" } ≠ none ∧
    ValidateJoinRoom sampleEnv { Type_ := "JOIN_ROOM", Room := "SYSTEM", User := "alice" } ≠ none ∧
    ValidateJoinRoom sampleEnv { Type_ := "JOIN_ROOM", Room := "General", User := "alice" } = none :=
  ⟨(join_validator_accepts_iff sampleEnv
      { Type_ := "JOIN_ROOM", Room := "Admin", User := "alice" } (by decide)).2 (by decide),
   (join_validator_accepts_iff sampleEnv
      { Type_ := "JOIN_ROOM", Room := "SYSTEM", User := "alice" } (by decide)).2 (by decide),
   (join_validator_accepts_iff sampleEnv
      { Type_ := "JOIN_ROOM", Room := "General", User := "alice" } (by decide)).1.2
      ⟨by decide, by decide, by decide, by decide, by decide⟩⟩

/-! ## C20: room names as keys -/

/-- A direct send does not touch the hub. -/
theorem SendToClient_hub (env : Env) (st st' : State) (client : ClientInterface)
    (event : Event) (err : Option String)
    (h : SendToClient env st client event = .ok (st', err)) : st'.hub = st.hub := by
  unfold SendToClient at h
  cases hc : client.asClient with
  | none =>
    simp only [hc] at h
    cases h
    rfl
  | some c =>
    simp only [hc] at h
    cases hj : env.marshal event with
    | error e =>
      simp only [hj] at h
      cases h
      rfl
    | ok bytes =>
      simp only [hj] at h
      cases ht : (st.send c).trySend bytes with
      | error p => simp [ht] at h
      | ok r =>
        cases r with
        | none =>
          simp only [ht] at h
          cases h
          rfl
        | some ch =>
          simp only [ht] at h
          cases h
          rfl

/-- The hub `HandleJoinRoom` leaves on a validated frame is the hub after `JoinChatRoom`
with the room string of the request. -/
theorem HandleJoinRoom_hub (env : Env) (w : World) (client : ClientInterface) (frame : Bytes)
    (event : JoinRoomEvent) (hd : env.unmarshalJoinRoom frame = .ok event)
    (hv : ValidateJoinRoom env event = none) :
    (HandleJoinRoom env w client frame).1.st.hub = (JoinChatRoom w.st client event.Room).hub := by
  rw [HandleJoinRoom_valid env w client frame event hd hv]
  cases hs : SendToClient env (JoinChatRoom w.st client event.Room) client
      (roomJoined w.st client event) with
  | error p => rfl
  | ok r =>
    obtain ⟨st', err⟩ := r
    exact SendToClient_hub env _ st' client _ err hs

set_option maxRecDepth 100000 in
/-- C20 fails on the code: `General` and `general` both pass join validation,
and after `HandleJoinRoom` joined client 0 to `General` the client is a member of `General`
but not of `general`; a broadcast to `general` leaves its queue with the acknowledgement
alone, a broadcast to `General` adds the event. -/
theorem join_is_case_sensitive :
    ValidateJoinRoom sampleEnv { Type_ := "JOIN_ROOM", Room := "General", User := "alice" } = none
    ∧ ValidateJoinRoom sampleEnv { Type_ := "JOIN_ROOM", Room := "general", User := "alice" }
        = none
    ∧ (HandleJoinRoom sampleEnv sampleWorld (.client 0) frameJoinGeneral).2 = .returned none
    ∧ (HandleJoinRoom sampleEnv sampleWorld (.client 0) frameJoinGeneral).1.st.hub.chatRooms.member
        "General" 0 = true
    ∧ (HandleJoinRoom sampleEnv sampleWorld (.client 0) frameJoinGeneral).1.st.hub.chatRooms.member
        "general" 0 = false
    ∧ (BroadcastToChatRoom sampleEnv
          (HandleJoinRoom sampleEnv sampleWorld (.client 0) frameJoinGeneral).1.st
          "general" hello).toOption.map (fun st => (st.send 0).buf.length) = some 1
    ∧ (BroadcastToChatRoom sampleEnv
          (HandleJoinRoom sampleEnv sampleWorld (.client 0) frameJoinGeneral).1.st
          "General" hello).toOption.map (fun st => (st.send 0).buf.length) = some 2 := by
  decide

/-- The key of a join is the string of the request: after `HandleJoinRoom` on a
validated request of a hub connection, the connection is a member of the room named by the
request's room string; the member set of every other name, also one that differs from it
only in letter case, is as it was; and a broadcast to such a name that had no entry returns
the state unchanged, so it enqueues nothing. -/
theorem join_registers_exact_room_name (env : Env) (w : World) (c : ClientId) (frame : Bytes)
    (event : JoinRoomEvent) (hd : env.unmarshalJoinRoom frame = .ok event)
    (hv : ValidateJoinRoom env event = none) :
    (HandleJoinRoom env w (.client c) frame).1.st.hub.chatRooms.member event.Room c = true ∧
    (∀ r2, r2 ≠ event.Room →
      (HandleJoinRoom env w (.client c) frame).1.st.hub.chatRooms r2 = w.st.hub.chatRooms r2) ∧
    (∀ r2 ev, r2 ≠ event.Room → w.st.hub.chatRooms r2 = none →
      BroadcastToChatRoom env (HandleJoinRoom env w (.client c) frame).1.st r2 ev
        = .ok (HandleJoinRoom env w (.client c) frame).1.st) := by
  have hhub := HandleJoinRoom_hub env w (.client c) frame event hd hv
  have hother : ∀ r2, r2 ≠ event.Room →
      (HandleJoinRoom env w (.client c) frame).1.st.hub.chatRooms r2 = w.st.hub.chatRooms r2 := by
    intro r2 hne
    rw [hhub]
    exact addToGroup_other _ _ _ _ hne
  refine ⟨?_, hother, ?_⟩
  · rw [hhub]
    exact addToGroup_member _ _ _
  · intro r2 ev hne hnone
    have h := hother r2 hne
    rw [hnone] at h
    simp [BroadcastToChatRoom, h]

set_option maxRecDepth 100000 in
/-- A join of `General` on a new hub, seen from the name `general`. -/
theorem join_registers_exact_room_name_witness :
    (HandleJoinRoom sampleEnv sampleWorld (.client 0) frameJoinGeneral).1.st.hub.chatRooms.member
        "General" 0 = true
    ∧ (HandleJoinRoom sampleEnv sampleWorld (.client 0) frameJoinGeneral).1.st.hub.chatRooms
        "general" = sampleWorld.st.hub.chatRooms "general"
    ∧ BroadcastToChatRoom sampleEnv
        (HandleJoinRoom sampleEnv sampleWorld (.client 0) frameJoinGeneral).1.st "general" hello
      = .ok (HandleJoinRoom sampleEnv sampleWorld (.client 0) frameJoinGeneral).1.st :=
  ⟨(join_registers_exact_room_name sampleEnv sampleWorld 0 frameJoinGeneral
      { Type_ := "JOIN_ROOM", Room := "General", User := "alice" } rfl (by decide)).1,
   (join_registers_exact_room_name sampleEnv sampleWorld 0 frameJoinGeneral
      { Type_ := "JOIN_ROOM", Room := "General", User := "alice" } rfl (by decide)).2.1
      "general" (by decide),
   (join_registers_exact_room_name sampleEnv sampleWorld 0 frameJoinGeneral
      { Type_ := "JOIN_ROOM", Room := "General", User := "alice" } rfl (by decide)).2.2
      "general" hello (by decide) rfl⟩

/-! ## C21, C28, C30: the room-join handler and its acknowledgement -/

/-- What `SendToClient` does for a hub connection whose queue is open, by the room left in
the queue. -/
theorem SendToClient_open (env : Env) (st : State) (c : ClientId) (event : Event)
    (bytes : Bytes) (hj : env.marshal event = .ok bytes) (hopen : (st.send c).closed = false) :
    ((st.send c).full = false →
      SendToClient env st (.client c) event
        = .ok ({ st with send := Function.update st.send c ((st.send c).push bytes) }, none)) ∧
    ((st.send c).full = true →
      SendToClient env st (.client c) event = .ok (st, some "client send buffer is full")) := by
  constructor
  · intro hfull
    simp [SendToClient, ClientInterface.asClient, hj, Chan.trySend, hopen, hfull, Chan.push]
  · intro hfull
    simp [SendToClient, ClientInterface.asClient, hj, Chan.trySend, hopen, hfull]

/-- What `SendToClient` does for a hub connection whose queue is closed. -/
theorem SendToClient_closed (env : Env) (st : State) (c : ClientId) (event : Event)
    (bytes : Bytes) (hj : env.marshal event = .ok bytes) (hclosed : (st.send c).closed = true) :
    SendToClient env st (.client c) event = .error .sendOnClosedChannel := by
  simp [SendToClient, ClientInterface.asClient, hj, Chan.trySend, hclosed]

set_option maxRecDepth 100000 in
/-- The claim C21 as it is stated fails: a connection whose display name is `anonymous` asks
to join `General` as user `alice`; the acknowledgement queued for it names the user
`anonymous`. -/
theorem join_acknowledgement_names_the_connection :
    sampleEnv.unmarshalJoinRoom frameJoinGeneral
      = .ok { Type_ := "JOIN_ROOM", Room := "General", User := "alice" }
    ∧ sampleWorld.st.username 0 = "anonymous"
    ∧ (HandleJoinRoom sampleEnv sampleWorld (.client 0) frameJoinGeneral).2 = .returned none
    ∧ (HandleJoinRoom sampleEnv sampleWorld (.client 0) frameJoinGeneral).1.calls
      = [Call.JoinChatRoom (.client 0) "General",
         Call.SendToClient (.client 0)
          (.roomJoined { Type_ := "ROOM_JOINED", Room := "General", User := "anonymous" })]
    ∧ ((HandleJoinRoom sampleEnv sampleWorld (.client 0) frameJoinGeneral).1.st.send 0).buf
      = [ascii "\x7b\"type\":\"ROOM_JOINED\",\"room\":\"General\",\"user\":\"anonymous\"\x7d"] :=
  ⟨rfl, rfl, by decide, by decide, by decide⟩

/-- C21, amended. For a JOIN_ROOM request that passes validation, sent by a hub connection
whose queue is open and not full: `HandleJoinRoom` first calls `JoinChatRoom` with the
request's room, which makes the connection a member, then `SendToClient` with a
`ROOM_JOINED` event whose room is the request's room and whose user is the display name of
the connection; the serialization of that event is appended to the connection's queue and
the handler returns no error. -/
theorem join_acknowledges_with_connection_name (env : Env) (w : World) (c : ClientId)
    (frame : Bytes) (event : JoinRoomEvent) (bytes : Bytes)
    (hd : env.unmarshalJoinRoom frame = .ok event) (hv : ValidateJoinRoom env event = none)
    (hopen : (w.st.send c).closed = false) (hroom : (w.st.send c).full = false)
    (hj : env.marshal (.roomJoined
      { Type_ := "ROOM_JOINED", Room := event.Room, User := w.st.username c }) = .ok bytes) :
    HandleJoinRoom env w (.client c) frame =
      ({ w with
          st := { JoinChatRoom w.st (.client c) event.Room with
            send := Function.update w.st.send c ((w.st.send c).push bytes) }
          calls := w.calls ++ [Call.JoinChatRoom (.client c) event.Room,
            Call.SendToClient (.client c) (.roomJoined
              { Type_ := "ROOM_JOINED", Room := event.Room, User := w.st.username c })] },
        .returned none)
    ∧ (JoinChatRoom w.st (.client c) event.Room).hub.chatRooms.member event.Room c = true := by
  refine ⟨?_, addToGroup_member _ _ _⟩
  rw [HandleJoinRoom_valid env w (.client c) frame event hd hv]
  have hs := (SendToClient_open env (JoinChatRoom w.st (.client c) event.Room) c
    (roomJoined w.st (.client c) event) bytes hj hopen).1 hroom
  rw [hs]
  rfl

/-- C21, amended, at a join of `General` by a connection named `anonymous`. -/
theorem join_acknowledges_with_connection_name_witness :
    (HandleJoinRoom sampleEnv sampleWorld (.client 0) frameJoinGeneral).2 = .returned none
    ∧ (JoinChatRoom sampleWorld.st (.client 0) "General").hub.chatRooms.member "General" 0
      = true :=
  ⟨congrArg Prod.snd (join_acknowledges_with_connection_name sampleEnv sampleWorld 0
      frameJoinGeneral { Type_ := "JOIN_ROOM", Room := "General", User := "alice" }
      (ascii "\x7b\"type\":\"ROOM_JOINED\",\"room\":\"General\",\"user\":\"anonymous\"\x7d")
      rfl (by decide) rfl rfl rfl).1,
   (join_acknowledges_with_connection_name sampleEnv sampleWorld 0
      frameJoinGeneral { Type_ := "JOIN_ROOM", Room := "General", User := "alice" }
      (ascii "\x7b\"type\":\"ROOM_JOINED\",\"room\":\"General\",\"user\":\"anonymous\"\x7d")
      rfl (by decide) rfl rfl rfl).2⟩

set_option maxRecDepth 100000 in
/-- C28 fails on the code: the room name ` general `, with a space on each side, passes
join validation, and `HandleJoinRoom` registers the membership under that very string and
echoes it in `ROOM_JOINED`: a name with whitespace, outside `[A-Za-z0-9_-]`, is a room key,
and the connection is not in `general`. -/
theorem join_registers_unvalidated_name :
    sampleEnv.unmarshalJoinRoom frameJoinSpaces
      = .ok { Type_ := "JOIN_ROOM", Room := " general ", User := "alice" }
    ∧ ValidateJoinRoom sampleEnv { Type_ := "JOIN_ROOM", Room := " general ", User := "alice" }
      = none
    ∧ " general ".data.all isNameChar = false
    ∧ (HandleJoinRoom sampleEnv sampleWorld (.client 0) frameJoinSpaces).1.calls
      = [Call.JoinChatRoom (.client 0) " general ",
         Call.SendToClient (.client 0)
          (.roomJoined { Type_ := "ROOM_JOINED", Room := " general ", User := "anonymous" })]
    ∧ (HandleJoinRoom sampleEnv sampleWorld (.client 0) frameJoinSpaces).1.st.hub.chatRooms.member
        " general " 0 = true
    ∧ (HandleJoinRoom sampleEnv sampleWorld (.client 0) frameJoinSpaces).1.st.hub.chatRooms.member
        "general" 0 = false :=
  ⟨rfl, by decide, by decide, by decide, by decide, by decide⟩

set_option maxRecDepth 100000 in
/-- C30 fails on the code: the queue of client 0 is full and, since the eviction,
closed; on its JOIN_ROOM request `HandleJoinRoom` adds it to `General` and then
panics in `SendToClient` instead of returning the send-buffer-full error. -/
theorem join_by_evicted_client_panics :
    (evictedState.send 0).full = true
    ∧ (evictedState.send 0).closed = true
    ∧ (HandleJoinRoom sampleEnv { sampleWorld with st := evictedState } (.client 0)
        frameJoinGeneral).2 = .panicked .sendOnClosedChannel
    ∧ (HandleJoinRoom sampleEnv { sampleWorld with st := evictedState } (.client 0)
        frameJoinGeneral).1.st.hub.chatRooms.member "General" 0 = true := by
  decide

/-- A failed acknowledgement on an open queue.  `HandleJoinRoom` is not atomic: for a
JOIN_ROOM request that passes validation, sent by a hub connection whose queue is full and not closed,
it returns the error `client send buffer is full` and leaves every queue as it was, yet the
state it leaves is the one after `JoinChatRoom`: the connection is a member of the room. -/
theorem join_survives_failed_acknowledgement (env : Env) (w : World) (c : ClientId)
    (frame : Bytes) (event : JoinRoomEvent) (bytes : Bytes)
    (hd : env.unmarshalJoinRoom frame = .ok event) (hv : ValidateJoinRoom env event = none)
    (hopen : (w.st.send c).closed = false) (hfull : (w.st.send c).full = true)
    (hj : env.marshal (.roomJoined
      { Type_ := "ROOM_JOINED", Room := event.Room, User := w.st.username c }) = .ok bytes) :
    (HandleJoinRoom env w (.client c) frame).2 = .returned (some "client send buffer is full")
    ∧ (HandleJoinRoom env w (.client c) frame).1.st = JoinChatRoom w.st (.client c) event.Room
    ∧ (HandleJoinRoom env w (.client c) frame).1.st.send = w.st.send
    ∧ (HandleJoinRoom env w (.client c) frame).1.st.hub.chatRooms.member event.Room c = true := by
  have hs := (SendToClient_open env (JoinChatRoom w.st (.client c) event.Room) c
    (roomJoined w.st (.client c) event) bytes hj hopen).2 hfull
  have hr : HandleJoinRoom env w (.client c) frame =
      ({ w with
          st := JoinChatRoom w.st (.client c) event.Room
          calls := w.calls ++ [Call.JoinChatRoom (.client c) event.Room,
            Call.SendToClient (.client c) (roomJoined w.st (.client c) event)] },
        .returned (some "client send buffer is full")) := by
    rw [HandleJoinRoom_valid env w (.client c) frame event hd hv, hs]
  rw [hr]
  exact ⟨rfl, rfl, rfl, addToGroup_member _ _ _⟩

set_option maxRecDepth 100000 in
/-- A join of `General` by a connection with 256 queued messages in an open queue. -/
theorem join_survives_failed_acknowledgement_witness :
    (HandleJoinRoom sampleEnv { sampleWorld with st := fullQueueState } (.client 0)
        frameJoinGeneral).2 = .returned (some "client send buffer is full")
    ∧ (HandleJoinRoom sampleEnv { sampleWorld with st := fullQueueState } (.client 0)
        frameJoinGeneral).1.st.hub.chatRooms.member "General" 0 = true :=
  ⟨(join_survives_failed_acknowledgement sampleEnv { sampleWorld with st := fullQueueState } 0
      frameJoinGeneral { Type_ := "JOIN_ROOM", Room := "General", User := "alice" }
      (ascii "\x7b\"type\":\"ROOM_JOINED\",\"room\":\"General\",\"user\":\"anonymous\"\x7d")
      rfl (by decide) rfl (by decide) rfl).1,
   (join_survives_failed_acknowledgement sampleEnv { sampleWorld with st := fullQueueState } 0
      frameJoinGeneral { Type_ := "JOIN_ROOM", Room := "General", User := "alice" }
      (ascii "\x7b\"type\":\"ROOM_JOINED\",\"room\":\"General\",\"user\":\"anonymous\"\x7d")
      rfl (by decide) rfl (by decide) rfl).2.2.2⟩

/-! ## C22: a comment reaches the subscribers -/

/-- The send loop of a broadcast ends without a panic only if every key it visits has an
open queue. -/
theorem broadcastLoop_ok_open (bytes : Bytes) :
    ∀ (l : List ClientId) (send : ClientId → Chan) (members : ClientSet)
      (r : (ClientId → Chan) × ClientSet),
      l.Nodup → broadcastLoop bytes l (send, members) = .ok r →
      ∀ c ∈ l, (send c).closed = false := by
  intro l
  induction l with
  | nil =>
    intro send members r _ _ c hc
    cases hc
  | cons a l ih =>
    intro send members r hnd h c hc
    have ha : a ∉ l := (List.nodup_cons.mp hnd).1
    have hl : l.Nodup := (List.nodup_cons.mp hnd).2
    cases hcl : (send a).closed with
    | true => simp [broadcastLoop, Chan.trySend, hcl] at h
    | false =>
      rcases List.mem_cons.mp hc with rfl | hcl'
      · exact hcl
      · have hne : c ≠ a := fun e => ha (e ▸ hcl')
        cases hfull : (send a).full with
        | true =>
          simp only [broadcastLoop, Chan.trySend, Chan.close, hcl, hfull] at h
          have := ih _ _ r hl (by simpa using h) c hcl'
          rwa [Function.update_noteq hne] at this
        | false =>
          simp only [broadcastLoop, Chan.trySend, hcl, hfull] at h
          have := ih _ _ r hl (by simpa using h) c hcl'
          rwa [Function.update_noteq hne] at this

/-- What `BroadcastToPostSubscribers` does when every subscriber has an open queue. -/
theorem BroadcastToPostSubscribers_open (env : Env) (st : State) (postID : String)
    (event : Event) (bytes : Bytes) (members : ClientSet)
    (hj : env.marshal event = .ok bytes) (hm : st.hub.postSubscribers postID = some members)
    (hopen : ∀ c ∈ members.keys, (st.send c).closed = false) :
    ∃ st', BroadcastToPostSubscribers env st postID event = .ok st'
      ∧ (∀ c ∈ members.keys, (st.send c).full = false →
          st'.send c = (st.send c).push bytes ∧ st'.hub.postSubscribers.member postID c = true)
      ∧ (∀ c ∈ members.keys, (st.send c).full = true →
          (st'.send c).closed = true ∧ st'.hub.postSubscribers.member postID c = false) := by
  obtain ⟨send', members', heq, hs, hmem⟩ :=
    broadcastLoop_open bytes members.keys st.send members members.nodup hopen
  refine ⟨{ st with
      hub := { st.hub with
        postSubscribers := Function.update st.hub.postSubscribers postID (some members') }
      send := send' }, by simp only [BroadcastToPostSubscribers, hm, hj, heq], ?_, ?_⟩
  · intro c hc hfull
    refine ⟨by simp [hs c, hc, hfull], ?_⟩
    simp [GroupMap.member, ClientSet.contains, hmem c, hc, hfull]
  · intro c hc hfull
    refine ⟨by simp [hs c, hc, hfull], ?_⟩
    simp [GroupMap.member, ClientSet.contains, hmem c, hc, hfull]

/-- A broadcast to subscribers that returns met no closed queue. -/
theorem BroadcastToPostSubscribers_ok_open (env : Env) (st st' : State) (postID : String)
    (event : Event) (bytes : Bytes) (members : ClientSet)
    (hj : env.marshal event = .ok bytes) (hm : st.hub.postSubscribers postID = some members)
    (h : BroadcastToPostSubscribers env st postID event = .ok st') :
    ∀ c ∈ members.keys, (st.send c).closed = false := by
  simp only [BroadcastToPostSubscribers, hm, hj] at h
  cases hl : broadcastLoop bytes members.keys (st.send, members) with
  | error p => simp [hl] at h
  | ok r => exact broadcastLoop_ok_open bytes members.keys st.send members r members.nodup hl

/-! ## C23, C24: the record saved and the event broadcast -/

/-- The event after the user was filled in, field by field. -/
theorem ChatMessageEvent.withUser_chat_eq (event : ChatMessageEvent) (u : String) :
    event.withUser u
      = { Type_ := event.Type_, Room := event.Room,
          User := if event.User = "" then u else event.User, Message := event.Message } := by
  by_cases h : event.User = "" <;> simp [ChatMessageEvent.withUser, h]

/-- The event after the user was filled in, field by field. -/
theorem PostCommentEvent.withUser_comment_eq (event : PostCommentEvent) (u : String) :
    event.withUser u
      = { Type_ := event.Type_, PostID := event.PostID,
          User := if event.User = "" then u else event.User, Comment := event.Comment } := by
  by_cases h : event.User = "" <;> simp [PostCommentEvent.withUser, h]

/-- The repository stores the record of `HandleChatMessage` as it is handed over: its two
time fields are set, so `SaveMessage` fills in nothing. -/
theorem SaveMessage_chatRecord (env : Env) (w : World) (client : ClientInterface)
    (event : ChatMessageEvent) (db : DB) (now : Time) :
    SaveMessage env db now (chatRecord env w client event)
      = match env.execMessage db (chatRecord env w client event) with
        | .error err => .error ("failed to save message: " ++ err)
        | .ok db => .ok db := by
  simp [SaveMessage, chatRecord, Time.IsZero]

/-- C24: for a chat event that passes validation there is a record `r`, with room id the
event's room, content the event's message, type `chat` and username the event's user when
that is non-empty and the display name of the connection otherwise, and an event `ev` with
that same user, such that `HandleChatMessage` is: hand `r` to `SaveMessage`; when that
fails, return the error with the hub and the database untouched; when it succeeds, the
database is the one `SaveMessage` returns, which is the one the insert of `r` itself
returns, and the hub is the one `BroadcastToChatRoom` of `ev` to the event's room
leaves. -/
theorem saved_chat_record_follows_event (env : Env) (w : World) (client : ClientInterface)
    (frame : Bytes) (event : ChatMessageEvent)
    (hd : env.unmarshalChatMessage frame = .ok event) (hv : ValidateChatMessage event = none) :
    ∃ (r : Message) (ev : ChatMessageEvent),
      r.RoomID = event.Room ∧ r.Content = event.Message ∧ r.Type_ = "chat"
      ∧ r.Username = (if event.User = "" then client.GetUsername w.st else event.User)
      ∧ ev.User = r.Username
      ∧ HandleChatMessage env w client frame =
          (match SaveMessage env w.db (Time.instant (env.now (w.clock + 2))) r with
          | .error err =>
            ({ w with
                clock := w.clock + 3
                calls := w.calls ++ [Call.SaveMessage r] },
              .returned (some ("failed to save message: " ++ err)))
          | .ok db =>
            match BroadcastToChatRoom env w.st event.Room (.chatMessage ev) with
            | .error p =>
              ({ st := w.st, db := db, clock := w.clock + 3,
                 calls := w.calls ++ [Call.SaveMessage r,
                   Call.BroadcastToChatRoom event.Room (.chatMessage ev)] },
                .panicked p)
            | .ok st =>
              ({ st := st, db := db, clock := w.clock + 3,
                 calls := w.calls ++ [Call.SaveMessage r,
                   Call.BroadcastToChatRoom event.Room (.chatMessage ev)] },
                .returned none))
      ∧ (∀ db, env.execMessage w.db r = .ok db →
          (HandleChatMessage env w client frame).1.db = db) := by
  have hu : (chatRecord env w client event).Username
      = (if event.User = "" then client.GetUsername w.st else event.User) := by
    by_cases h : event.User = "" <;> simp [chatRecord, ChatMessageEvent.withUser, h]
  have h := HandleChatMessage_valid env w client frame event hd hv
  refine ⟨chatRecord env w client event, event.withUser (client.GetUsername w.st),
    rfl, rfl, rfl, hu, rfl, h, ?_⟩
  intro db hdb
  have hs := SaveMessage_chatRecord env w client event w.db
    (Time.instant (env.now (w.clock + 2)))
  rw [hdb] at hs
  rw [h, hs]
  cases BroadcastToChatRoom env w.st event.Room
    (.chatMessage (event.withUser (client.GetUsername w.st))) <;> rfl

set_option maxRecDepth 100000 in
/-- C24 at the chat scenario of the specification: `alice` says `hi` in `general`, where
she and a second client are members; the row stored is the record, and the second client
has the event in its queue. -/
theorem saved_chat_record_follows_event_witness :
    sampleEnv.unmarshalChatMessage frameChatHi = .ok chatHi
    ∧ ValidateChatMessage chatHi = none
    ∧ (∃ (r : Message) (ev : ChatMessageEvent),
      r.RoomID = chatHi.Room ∧ r.Content = chatHi.Message ∧ r.Type_ = "chat"
      ∧ r.Username
          = (if chatHi.User = "" then (ClientInterface.client 0).GetUsername twoMembers
              else chatHi.User)
      ∧ ev.User = r.Username
      ∧ HandleChatMessage sampleEnv { sampleWorld with st := twoMembers } (.client 0)
            frameChatHi =
          (match SaveMessage sampleEnv sampleWorld.db
              (Time.instant (sampleEnv.now (sampleWorld.clock + 2))) r with
          | .error err =>
            ({ st := twoMembers, db := sampleWorld.db, clock := sampleWorld.clock + 3,
               calls := sampleWorld.calls ++ [Call.SaveMessage r] },
              .returned (some ("failed to save message: " ++ err)))
          | .ok db =>
            match BroadcastToChatRoom sampleEnv twoMembers chatHi.Room (.chatMessage ev) with
            | .error p =>
              ({ st := twoMembers, db := db, clock := sampleWorld.clock + 3,
                 calls := sampleWorld.calls ++ [Call.SaveMessage r,
                   Call.BroadcastToChatRoom chatHi.Room (.chatMessage ev)] },
                .panicked p)
            | .ok st =>
              ({ st := st, db := db, clock := sampleWorld.clock + 3,
                 calls := sampleWorld.calls ++ [Call.SaveMessage r,
                   Call.BroadcastToChatRoom chatHi.Room (.chatMessage ev)] },
                .returned none))
      ∧ (∀ db, sampleEnv.execMessage sampleWorld.db r = .ok db →
          (HandleChatMessage sampleEnv { sampleWorld with st := twoMembers } (.client 0)
            frameChatHi).1.db = db))
    ∧ (HandleChatMessage sampleEnv { sampleWorld with st := twoMembers } (.client 0)
        frameChatHi).1.db.messages.map (fun m => (m.RoomID, m.Content, m.Type_, m.Username))
        = [("general", "hi", "chat", "alice")]
    ∧ ((HandleChatMessage sampleEnv { sampleWorld with st := twoMembers } (.client 0)
        frameChatHi).1.st.send 1).buf = [frameChatHi] :=
  ⟨rfl, by decide,
    saved_chat_record_follows_event sampleEnv { sampleWorld with st := twoMembers } (.client 0)
      frameChatHi chatHi rfl (by decide),
    by decide, by decide⟩

/-- C23 fails: the same frame handled at two different instants is saved under two
different ids and timestamps, yet the event broadcast is the same; it is the decoded
event, which has no field for either. -/
theorem broadcast_event_ignores_saved_record :
    (HandleChatMessage sampleEnv sampleWorld (.client 0) frameChatHi).1.calls
        = [Call.SaveMessage (chatRecord sampleEnv sampleWorld (.client 0) chatHi),
            Call.BroadcastToChatRoom "general" (.chatMessage chatHi)]
    ∧ (HandleChatMessage laterEnv sampleWorld (.client 0) frameChatHi).1.calls
        = [Call.SaveMessage (chatRecord laterEnv sampleWorld (.client 0) chatHi),
            Call.BroadcastToChatRoom "general" (.chatMessage chatHi)]
    ∧ (chatRecord sampleEnv sampleWorld (.client 0) chatHi).ID
        ≠ (chatRecord laterEnv sampleWorld (.client 0) chatHi).ID
    ∧ (chatRecord sampleEnv sampleWorld (.client 0) chatHi).Timestamp
        ≠ (chatRecord laterEnv sampleWorld (.client 0) chatHi).Timestamp
    ∧ broadcastEvents (HandleChatMessage sampleEnv sampleWorld (.client 0) frameChatHi).1.calls
        = broadcastEvents (HandleChatMessage laterEnv sampleWorld (.client 0) frameChatHi).1.calls
    ∧ (commentRecord sampleEnv sampleWorld (.client 0) commentNice).ID
        ≠ (commentRecord laterEnv sampleWorld (.client 0) commentNice).ID
    ∧ broadcastEvents (HandlePostComment sampleEnv sampleWorld (.client 0) frameComment).1.calls
        = [.postComment commentNice]
    ∧ broadcastEvents (HandlePostComment laterEnv sampleWorld (.client 0) frameComment).1.calls
        = [.postComment commentNice] := by
  decide

/-- C23, amended: for a chat event that passes validation and is saved, `HandleChatMessage`
is the broadcast to the event's room of the event made of the type, room and message of
the frame and of the frame's user, or the display name of the connection when that is
empty: the hub it leaves is the one that broadcast leaves, whatever id and timestamp the
saved record was given.  Likewise, for a comment event that passes validation and is
saved, `HandlePostComment` is the subscription of the sender followed by the broadcast to
the subscribers of the event made of the type, post id and comment of the frame, with the
same rule for the user. -/
theorem broadcast_event_is_the_inbound_event (env : Env) (w : World)
    (client : ClientInterface) :
    (∀ (frame : Bytes) (event : ChatMessageEvent) (db : DB),
      env.unmarshalChatMessage frame = .ok event → ValidateChatMessage event = none →
      SaveMessage env w.db (Time.instant (env.now (w.clock + 2)))
        (chatRecord env w client event) = .ok db →
      HandleChatMessage env w client frame =
        match BroadcastToChatRoom env w.st event.Room
          (.chatMessage
            { Type_ := event.Type_, Room := event.Room,
              User := if event.User = "" then client.GetUsername w.st else event.User,
              Message := event.Message }) with
        | .error p =>
          ({ st := w.st, db := db, clock := w.clock + 3,
             calls := w.calls ++ [Call.SaveMessage (chatRecord env w client event),
               Call.BroadcastToChatRoom event.Room
                 (.chatMessage
                   { Type_ := event.Type_, Room := event.Room,
                     User := if event.User = "" then client.GetUsername w.st else event.User,
                     Message := event.Message })] },
            .panicked p)
        | .ok st =>
          ({ st := st, db := db, clock := w.clock + 3,
             calls := w.calls ++ [Call.SaveMessage (chatRecord env w client event),
               Call.BroadcastToChatRoom event.Room
                 (.chatMessage
                   { Type_ := event.Type_, Room := event.Room,
                     User := if event.User = "" then client.GetUsername w.st else event.User,
                     Message := event.Message })] },
            .returned none))
    ∧ (∀ (frame : Bytes) (event : PostCommentEvent) (db : DB),
      env.unmarshalPostComment frame = .ok event → ValidatePostComment event = none →
      CreateComment env w.db (Time.instant (env.now (w.clock + 3)))
        (commentRecord env w client event) = .ok db →
      HandlePostComment env w client frame =
        match BroadcastToPostSubscribers env (SubscribeToPost w.st client event.PostID)
          event.PostID
          (.postComment
            { Type_ := event.Type_, PostID := event.PostID,
              User := if event.User = "" then client.GetUsername w.st else event.User,
              Comment := event.Comment }) with
        | .error p =>
          ({ st := SubscribeToPost w.st client event.PostID, db := db, clock := w.clock + 4,
             calls := w.calls ++ [Call.CreateComment (commentRecord env w client event),
               Call.SubscribeToPost client event.PostID,
               Call.BroadcastToPostSubscribers event.PostID
                 (.postComment
                   { Type_ := event.Type_, PostID := event.PostID,
                     User := if event.User = "" then client.GetUsername w.st else event.User,
                     Comment := event.Comment })] },
            .panicked p)
        | .ok st =>
          ({ st := st, db := db, clock := w.clock + 4,
             calls := w.calls ++ [Call.CreateComment (commentRecord env w client event),
               Call.SubscribeToPost client event.PostID,
               Call.BroadcastToPostSubscribers event.PostID
                 (.postComment
                   { Type_ := event.Type_, PostID := event.PostID,
                     User := if event.User = "" then client.GetUsername w.st else event.User,
                     Comment := event.Comment })] },
            .returned none)) := by
  constructor
  · intro frame event db hd hv hs
    have h := HandleChatMessage_valid env w client frame event hd hv
    rw [hs, ChatMessageEvent.withUser_chat_eq] at h
    exact h
  · intro frame event db hd hv hs
    have h := HandlePostComment_valid env w client frame event hd hv
    rw [hs, PostCommentEvent.withUser_comment_eq] at h
    exact h

set_option maxRecDepth 100000 in
/-- The amended C23 at the chat scenario of the specification in a room of two members,
and at a first comment on `post-1`: the second member of the room, and the sender of the
comment, find in their queue the frame as it was sent. -/
theorem broadcast_event_is_the_inbound_event_witness :
    sampleEnv.unmarshalChatMessage frameChatHi = .ok chatHi
    ∧ ValidateChatMessage chatHi = none
    ∧ sampleEnv.unmarshalPostComment frameComment = .ok commentNice
    ∧ ValidatePostComment commentNice = none
    ∧ HandleChatMessage sampleEnv { sampleWorld with st := twoMembers } (.client 0) frameChatHi
        = (match BroadcastToChatRoom sampleEnv twoMembers chatHi.Room
            (.chatMessage
              { Type_ := chatHi.Type_, Room := chatHi.Room,
                User := if chatHi.User = "" then (ClientInterface.client 0).GetUsername twoMembers
                  else chatHi.User,
                Message := chatHi.Message }) with
          | .error p =>
            ({ st := twoMembers, db := { messages := [chatRecord sampleEnv
                  { sampleWorld with st := twoMembers } (.client 0) chatHi], comments := [] },
               clock := sampleWorld.clock + 3,
               calls := sampleWorld.calls ++ [Call.SaveMessage (chatRecord sampleEnv
                   { sampleWorld with st := twoMembers } (.client 0) chatHi),
                 Call.BroadcastToChatRoom chatHi.Room
                   (.chatMessage
                     { Type_ := chatHi.Type_, Room := chatHi.Room,
                       User := if chatHi.User = ""
                         then (ClientInterface.client 0).GetUsername twoMembers else chatHi.User,
                       Message := chatHi.Message })] },
              .panicked p)
          | .ok st =>
            ({ st := st, db := { messages := [chatRecord sampleEnv
                  { sampleWorld with st := twoMembers } (.client 0) chatHi], comments := [] },
               clock := sampleWorld.clock + 3,
               calls := sampleWorld.calls ++ [Call.SaveMessage (chatRecord sampleEnv
                   { sampleWorld with st := twoMembers } (.client 0) chatHi),
                 Call.BroadcastToChatRoom chatHi.Room
                   (.chatMessage
                     { Type_ := chatHi.Type_, Room := chatHi.Room,
                       User := if chatHi.User = ""
                         then (ClientInterface.client 0).GetUsername twoMembers else chatHi.User,
                       Message := chatHi.Message })] },
              .returned none))
    ∧ ((HandleChatMessage sampleEnv { sampleWorld with st := twoMembers } (.client 0)
        frameChatHi).1.st.send 1).buf = [frameChatHi]
    ∧ (HandlePostComment sampleEnv { sampleWorld with st := twoMembers } (.client 0)
        frameComment).2 = .returned none
    ∧ ((HandlePostComment sampleEnv { sampleWorld with st := twoMembers } (.client 0)
        frameComment).1.st.send 0).buf = [frameComment] :=
  ⟨rfl, by decide, rfl, by decide,
    (broadcast_event_is_the_inbound_event sampleEnv { sampleWorld with st := twoMembers }
      (.client 0)).1 frameChatHi chatHi _ rfl (by decide) rfl,
    by decide,
    congrArg Prod.snd
      ((broadcast_event_is_the_inbound_event sampleEnv { sampleWorld with st := twoMembers }
        (.client 0)).2 frameComment commentNice
        { messages := [], comments := [commentRecord sampleEnv
          { sampleWorld with st := twoMembers } (.client 0) commentNice] }
        rfl (by decide) rfl),
    by decide⟩

/-- The members of an entry after `addToGroup`. -/
theorem addToGroup_keys (m : GroupMap) (name : String) (c d : ClientId) :
    d ∈ (((m name).getD ClientSet.empty).insert c).keys ↔ d = c ∨ m.member name d = true := by
  rw [ClientSet.mem_insert]
  cases hm : m name with
  | none => simp [GroupMap.member, hm, ClientSet.empty]
  | some members => simp [GroupMap.member, hm, ClientSet.contains]

set_option maxRecDepth 100000 in
/-- C22 fails: a connection whose queue is full and open sends a valid comment that is
saved; the handler returns, and the sender is not a subscriber of the post afterwards: the
broadcast found its queue full, removed it from the set and closed the queue. -/
theorem full_sender_is_not_subscribed :
    sampleEnv.unmarshalPostComment frameComment = .ok commentNice
    ∧ ValidatePostComment commentNice = none
    ∧ (slowReader.send 0).closed = false
    ∧ (HandlePostComment sampleEnv { sampleWorld with st := slowReader } (.client 0)
        frameComment).2 = .returned none
    ∧ (HandlePostComment sampleEnv { sampleWorld with st := slowReader } (.client 0)
        frameComment).1.db.comments.length = 1
    ∧ (HandlePostComment sampleEnv { sampleWorld with st := slowReader } (.client 0)
        frameComment).1.st.hub.postSubscribers.member "post-1" 0 = false
    ∧ ((HandlePostComment sampleEnv { sampleWorld with st := slowReader } (.client 0)
        frameComment).1.st.send 0).closed = true :=
  ⟨rfl, by decide⟩

/-- C22, amended: for a comment event that passes validation, is saved and serializes,
sent by a hub connection `c` while neither `c` nor any subscriber of the post has a closed
queue, `HandlePostComment` returns without an error; afterwards `c` and every earlier
subscriber whose queue was not full has the comment event at the tail of its queue and is
a subscriber of the post, and each of them whose queue was full, `c` included, is no
longer a subscriber and has its queue closed. -/
theorem comment_reaches_subscribers_with_room (env : Env) (w : World) (c : ClientId)
    (frame : Bytes) (event : PostCommentEvent) (db : DB) (bytes : Bytes)
    (hd : env.unmarshalPostComment frame = .ok event) (hv : ValidatePostComment event = none)
    (hs : CreateComment env w.db (Time.instant (env.now (w.clock + 3)))
      (commentRecord env w (.client c) event) = .ok db)
    (hj : env.marshal (.postComment (event.withUser ((ClientInterface.client c).GetUsername w.st)))
      = .ok bytes)
    (hopen : ∀ m, (m = c ∨ w.st.hub.postSubscribers.member event.PostID m = true) →
      (w.st.send m).closed = false) :
    (HandlePostComment env w (.client c) frame).2 = .returned none
    ∧ ∀ m, (m = c ∨ w.st.hub.postSubscribers.member event.PostID m = true) →
      ((w.st.send m).full = false →
        (HandlePostComment env w (.client c) frame).1.st.send m = (w.st.send m).push bytes
        ∧ (HandlePostComment env w (.client c) frame).1.st.hub.postSubscribers.member
            event.PostID m = true)
      ∧ ((w.st.send m).full = true →
        ((HandlePostComment env w (.client c) frame).1.st.send m).closed = true
        ∧ (HandlePostComment env w (.client c) frame).1.st.hub.postSubscribers.member
            event.PostID m = false) := by
  have h := HandlePostComment_valid env w (.client c) frame event hd hv
  rw [hs] at h
  have hm : (SubscribeToPost w.st (.client c) event.PostID).hub.postSubscribers event.PostID
      = some (((w.st.hub.postSubscribers event.PostID).getD ClientSet.empty).insert c) := by
    simp [SubscribeToPost, ClientInterface.asClient, addToGroup_same]
  have hsend : (SubscribeToPost w.st (.client c) event.PostID).send = w.st.send := by
    simp [SubscribeToPost, ClientInterface.asClient]
  have hopen' : ∀ m ∈ (((w.st.hub.postSubscribers event.PostID).getD ClientSet.empty).insert
      c).keys, ((SubscribeToPost w.st (.client c) event.PostID).send m).closed = false := by
    intro m hmem
    rw [hsend]
    exact hopen m ((addToGroup_keys _ _ _ _).1 hmem)
  obtain ⟨st', hb, hnf, hf⟩ := BroadcastToPostSubscribers_open env
    (SubscribeToPost w.st (.client c) event.PostID) event.PostID _ bytes _ hj hm hopen'
  rw [hb] at h
  rw [h]
  refine ⟨rfl, ?_⟩
  intro m hmem
  have hk := (addToGroup_keys _ _ _ _).2 hmem
  constructor
  · intro hfull
    have := hnf m hk (by rw [hsend]; exact hfull)
    rw [hsend] at this
    exact this
  · intro hfull
    exact hf m hk (by rw [hsend]; exact hfull)

/-- The amended C22 on a new hub: the first comment on `post-1` subscribes its sender and
is queued for it. -/
theorem comment_reaches_subscribers_with_room_witness :
    sampleEnv.unmarshalPostComment frameComment = .ok commentNice
    ∧ ValidatePostComment commentNice = none
    ∧ (∀ m, (m = 0 ∨ sampleWorld.st.hub.postSubscribers.member commentNice.PostID m = true) →
        (sampleWorld.st.send m).closed = false)
    ∧ (HandlePostComment sampleEnv sampleWorld (.client 0) frameComment).2 = .returned none
    ∧ ∀ m, (m = 0 ∨ sampleWorld.st.hub.postSubscribers.member commentNice.PostID m = true) →
      ((sampleWorld.st.send m).full = false →
        (HandlePostComment sampleEnv sampleWorld (.client 0) frameComment).1.st.send m
          = (sampleWorld.st.send m).push frameComment
        ∧ (HandlePostComment sampleEnv sampleWorld (.client 0)
            frameComment).1.st.hub.postSubscribers.member commentNice.PostID m = true)
      ∧ ((sampleWorld.st.send m).full = true →
        ((HandlePostComment sampleEnv sampleWorld (.client 0) frameComment).1.st.send m).closed
          = true
        ∧ (HandlePostComment sampleEnv sampleWorld (.client 0)
            frameComment).1.st.hub.postSubscribers.member commentNice.PostID m = false) :=
  ⟨rfl, by decide, fun _ _ => rfl,
    comment_reaches_subscribers_with_room sampleEnv sampleWorld 0 frameComment commentNice _
      frameComment rfl (by decide) rfl rfl (fun _ _ => rfl)⟩

/-! ## C25: the inbound loop reports handler errors -/

set_option maxRecDepth 100000 in
/-- C25 fails on the code: a registered connection whose queue a broadcast has closed sends
a frame the router rejects; the report of the error is a send on the closed queue, the
loop panics and the frame that follows is never read. -/
theorem error_report_to_evicted_client_panics :
    evictedState.hub.clients.contains 0 = true
    ∧ (evictedState.send 0).closed = true
    ∧ (handleEvent sampleEnv { sampleWorld with st := evictedState } 0 frameLowerType).2
        = .returned (some "unknown event type: chat_message")
    ∧ (readPump sampleEnv 0 { sampleWorld with st := evictedState }
        [.message frameLowerType, .message frameChatHi]).2 = .panicked .sendOnClosedChannel := by
  decide

/-- The report of an error on an open queue: when the router returns an error `e` on a frame
and the queue of the sender is open, the inbound loop goes on with the frames that follow, in a world in which
the hub (its client table and its groups) and the database are as the router left them;
when the queue is not full and the event `ERROR` with message `e` and no code serializes,
its serialization is at the tail of the queue of the sender and no other queue changed;
when the queue is full no queue changed. -/
theorem readPump_reports_error_and_continues (env : Env) (w w1 : World) (c : ClientId)
    (frame : Bytes) (reads : List ReadMessage) (e : String)
    (hr : handleEvent env w c frame = (w1, .returned (some e)))
    (hopen : (w1.st.send c).closed = false) :
    ∃ w2 : World,
      readPump env c w (.message frame :: reads) = readPump env c w2 reads
      ∧ w2.st.hub = w1.st.hub ∧ w2.db = w1.db
      ∧ w2.calls = w1.calls
          ++ [Call.SendToClient (.client c)
                (.errorEvent { Type_ := "ERROR", Message := e, Code := "" })]
      ∧ (∀ bytes, env.marshal (.errorEvent { Type_ := "ERROR", Message := e, Code := "" })
            = .ok bytes → (w1.st.send c).full = false →
          w2.st.send = Function.update w1.st.send c ((w1.st.send c).push bytes))
      ∧ ((w1.st.send c).full = true → w2.st.send = w1.st.send) := by
  cases hj : env.marshal (.errorEvent { Type_ := "ERROR", Message := e, Code := "" }) with
  | error err =>
    refine ⟨{ w1 with calls := w1.calls ++ [Call.SendToClient (.client c)
        (.errorEvent { Type_ := "ERROR", Message := e, Code := "" })] }, ?_, rfl, rfl, rfl, ?_, ?_⟩
    · simp [readPump, hr, SendError, NewErrorEvent, World.SendToClient, SendToClient,
        ClientInterface.asClient, hj]
    · intro bytes hb
      cases hb
    · intro _
      rfl
  | ok bytes =>
    have hsend := SendToClient_open env w1.st c
      (.errorEvent { Type_ := "ERROR", Message := e, Code := "" }) bytes hj hopen
    cases hfull : (w1.st.send c).full with
    | false =>
      refine ⟨{ w1 with
          st := { w1.st with send := Function.update w1.st.send c ((w1.st.send c).push bytes) }
          calls := w1.calls ++ [Call.SendToClient (.client c)
            (.errorEvent { Type_ := "ERROR", Message := e, Code := "" })] },
        ?_, rfl, rfl, rfl, ?_, ?_⟩
      · simp [readPump, hr, SendError, NewErrorEvent, World.SendToClient, hsend.1 hfull]
      · intro bytes' hb _
        cases hb
        rfl
      · intro h
        cases h
    | true =>
      refine ⟨{ w1 with calls := w1.calls ++ [Call.SendToClient (.client c)
          (.errorEvent { Type_ := "ERROR", Message := e, Code := "" })] },
        ?_, rfl, rfl, rfl, ?_, ?_⟩
      · simp [readPump, hr, SendError, NewErrorEvent, World.SendToClient, hsend.2 hfull]
      · intro _ _ h
        cases h
      · intro _
        rfl

/-- The report of an error to a member of `general` with an empty queue that sends a frame
whose discriminator is in lower case. -/
theorem readPump_reports_error_and_continues_witness :
    handleEvent sampleEnv { sampleWorld with st := twoMembers } 0 frameLowerType
      = ({ sampleWorld with st := twoMembers },
          .returned (some "unknown event type: chat_message"))
    ∧ (twoMembers.send 0).closed = false
    ∧ ∃ w2 : World,
      readPump sampleEnv 0 { sampleWorld with st := twoMembers }
          (.message frameLowerType :: [.message frameChatHi])
        = readPump sampleEnv 0 w2 [.message frameChatHi]
      ∧ w2.st.hub = twoMembers.hub ∧ w2.db = sampleWorld.db
      ∧ w2.calls = sampleWorld.calls
          ++ [Call.SendToClient (.client 0)
                (.errorEvent
                  { Type_ := "ERROR", Message := "unknown event type: chat_message", Code := "" })]
      ∧ (∀ bytes, sampleEnv.marshal (.errorEvent
            { Type_ := "ERROR", Message := "unknown event type: chat_message", Code := "" })
            = .ok bytes → (twoMembers.send 0).full = false →
          w2.st.send = Function.update twoMembers.send 0 ((twoMembers.send 0).push bytes))
      ∧ ((twoMembers.send 0).full = true → w2.st.send = twoMembers.send) :=
  ⟨rfl, by decide,
    readPump_reports_error_and_continues sampleEnv { sampleWorld with st := twoMembers }
      { sampleWorld with st := twoMembers } 0 frameLowerType [.message frameChatHi]
      "unknown event type: chat_message" rfl (by decide)⟩

/-! ## C26: the keepalive constants -/

/-- C26: the ping period times ten is the pong wait times nine, the pong wait is 60
seconds, so the ping period is 54 seconds and strictly less than the pong wait; the write
wait is 10 seconds and the largest inbound message has 1024 bytes.  The product
`pongWait * 9` fits the 64-bit signed integer of `time.Duration`. -/
theorem keepalive_constants :
    pingPeriod * 10 = pongWait * 9 ∧ pongWait = 60 * Second ∧ pingPeriod = 54 * Second
    ∧ pingPeriod < pongWait ∧ writeWait = 10 * Second ∧ maxMessageSize = 1024
    ∧ pongWait * 9 < 2 ^ 63 := by
  decide

/-! ## C29: one frame for the messages that wait -/

/-- The loop `for i := 0; i < n; i++` of `writePump` with `n` the length of the queue:
each message is written after a newline and the queue is left empty. -/
theorem drainQueued_all (queue : List Bytes) :
    ∀ w : Bytes, drainQueued queue.length w queue
      = (w ++ queue.flatMap (fun m => newline :: m), []) := by
  induction queue with
  | nil => intro w; simp [drainQueued]
  | cons m queue ih =>
    intro w
    simp [drainQueued, ih, List.append_assoc]

/-- Messages joined by newlines, as a first message followed by newline and message. -/
theorem intercalate_newline (rest : List Bytes) :
    ∀ m0 : Bytes, [newline].intercalate (m0 :: rest)
      = m0 ++ rest.flatMap (fun m => newline :: m) := by
  induction rest with
  | nil => intro m0; simp [List.intercalate, List.intersperse]
  | cons m rest ih =>
    intro m0
    have h := ih m
    simp only [List.intercalate, List.intersperse, List.flatten, List.flatMap_cons] at h ⊢
    rw [h]
    simp

/-- C29: when the queue of a connection holds `m0` followed by `rest` and the transport
accepts the frame, one turn of `writePump` writes a single frame made of `m0` followed, for
each message of `rest` in queue order, by one newline byte and that message, and leaves the
queue empty; when no message holds a newline byte, cutting the frame at its newlines gives
back exactly `m0 :: rest`. -/
theorem writePump_coalesces_in_order (ch : Chan) (m0 : Bytes) (rest : List Bytes)
    (h : ch.buf = m0 :: rest) :
    writePumpSend true true ch
      = .wrote (m0 ++ rest.flatMap (fun m => newline :: m)) { ch with buf := [] }
    ∧ ((∀ m ∈ m0 :: rest, newline ∉ m) →
        (m0 ++ rest.flatMap (fun m => newline :: m)).splitOn newline = m0 :: rest) := by
  constructor
  · simp [writePumpSend, h, drainQueued_all]
  · intro hn
    rw [← intercalate_newline]
    exact List.splitOn_intercalate _ newline hn (by simp)

/-- C29 for a queue that holds the chat message and then the comment. -/
theorem writePump_coalesces_in_order_witness :
    writePumpSend true true { buf := [frameChatHi, frameComment], cap := 256, closed := false }
      = .wrote (frameChatHi ++ [frameComment].flatMap (fun m => newline :: m))
          { buf := [], cap := 256, closed := false }
    ∧ ((∀ m ∈ frameChatHi :: [frameComment], newline ∉ m) →
        (frameChatHi ++ [frameComment].flatMap (fun m => newline :: m)).splitOn newline
          = frameChatHi :: [frameComment]) :=
  writePump_coalesces_in_order { buf := [frameChatHi, frameComment], cap := 256, closed := false }
    frameChatHi [frameComment] rfl

/-! ## C27: the locks of the broadcast methods -/

set_option maxRecDepth 100000 in
/-- C27 fails: `BroadcastToChatRoom` releases the read lock of the rooms right after the
lookup and visits the two members of `general` with no lock held; for a member whose queue
is full it deletes the member from the set with no lock held either, and so does
`BroadcastToPostSubscribers` with the lock of the subscriptions; `JoinChatRoom` does all
its accesses between `Lock` and `Unlock`. -/
theorem broadcast_iterates_and_deletes_unlocked :
    BroadcastToChatRoomAccesses sampleEnv twoMembers "general" hello
        = [.RLock .roomsMutex, .read .roomsMutex, .RUnlock .roomsMutex,
            .read .roomsMutex, .read .roomsMutex]
    ∧ keepsDiscipline .roomsMutex
        (BroadcastToChatRoomAccesses sampleEnv twoMembers "general" hello) false false = false
    ∧ BroadcastToChatRoomAccesses sampleEnv (JoinChatRoom slowReader (.client 0) "general")
          "general" hello
        = [.RLock .roomsMutex, .read .roomsMutex, .RUnlock .roomsMutex,
            .read .roomsMutex, .write .roomsMutex]
    ∧ BroadcastToPostSubscribersAccesses sampleEnv
          (SubscribeToPost slowReader (.client 0) "post-1") "post-1" hello
        = [.RLock .postMutex, .read .postMutex, .RUnlock .postMutex,
            .read .postMutex, .write .postMutex]
    ∧ keepsDiscipline .postMutex
        (BroadcastToPostSubscribersAccesses sampleEnv
          (SubscribeToPost slowReader (.client 0) "post-1") "post-1" hello) false false = false
    ∧ JoinChatRoomAccesses twoMembers (.client 0) "general"
        = [.Lock .roomsMutex, .read .roomsMutex, .write .roomsMutex, .Unlock .roomsMutex]
    ∧ keepsDiscipline .roomsMutex (JoinChatRoomAccesses twoMembers (.client 0) "general")
        false false = true := by
  decide

end WebsocketGin
